import Mathlib

set_option maxRecDepth 8000

/-!
Shallow embedding of the log-db ingest pipeline (src/ingest) and proofs about
its specified properties.

The embedding follows the Python sources:
  * `src/ingest/ids.py` — `deterministic_action_type_id`, `load_log_type_ids`
  * `src/ingest/config.py` — `ACTION_TYPE_NAMESPACE`, field lists
  * `src/ingest/timestamps.py` — `ts_apache`, `ts_hdfs_compact`
  * `src/ingest/writers.py` — `write_entry`
  * `src/ingest/workers/access_worker.py` — `ACCESS_REGEX`, `parse_access_worker`
  * `src/ingest/workers/namesystem_worker.py` — `NAMESYS_UPDATE_REGEX`,
    `NAMESYS_ASK_REPLICATE_REGEX`, `add_update`, `add_replicate`
  * `src/ingest/workers/dataxceiver_worker.py` — `DATAX_REGEX`, `add_receiving`,
    `add_received`, `add_served`
  * `src/ingest/merge.py` — `merge_csv_files`, `merge_action_types`
  * `src/ingest/parser.py` — `build_namesystem_update`
  * `src/ingest/load.py` — COPY-based loading of the staged CSVs

Python strings are modelled as Lean `String`/`List Char`; CSV cells that the
code leaves empty (Python `""` or `None` serialized by `csv.DictWriter`) are
modelled as `Option` values or `""` as noted at each definition.  Regex
matching is modelled by hand-written matchers that follow each pattern's
backtracking semantics; exceptions (`ValueError` from `int`/`strptime`,
`AttributeError`) are modelled with `Except`.
-/

/-! ### Character classes (ASCII fragment of Python's `\s`, `\d`, `\w`, `[0-9.]`) -/

/-- Python `\s` on the ASCII range: space, tab, newline, carriage return,
vertical tab, form feed. -/
def pySpace (c : Char) : Bool :=
  c = ' ' || c = '\t' || c = '\n' || c = '\x0d' || c = '\x0b' || c = '\x0c'

/-- Python `\d` on the ASCII range. -/
def pyDigit (c : Char) : Bool :=
  '0' ≤ c && c ≤ '9'

/-- The character class `[0-9.]` used for IP captures. -/
def ipChar (c : Char) : Bool :=
  pyDigit c || c = '.'

/-- The character class `[A-Za-z]` (HTTP method capture). -/
def asciiAlpha (c : Char) : Bool :=
  ('A' ≤ c && c ≤ 'Z') || ('a' ≤ c && c ≤ 'z')

/-- The character class `[0-9\-]` used for the DataXceiver block captures. -/
def blkChar (c : Char) : Bool :=
  pyDigit c || c = '-'

/-- Numeric value of a decimal digit character. -/
def digitVal (c : Char) : Nat :=
  c.toNat - '0'.toNat

/-! ### Python `str.rstrip("\n")` and `str.split()` -/

/-- `str.rstrip("\n")`: drop all trailing newline characters. -/
def rstripNewlines (s : String) : String :=
  ⟨(s.data.reverse.dropWhile (· = '\n')).reverse⟩

/-- Accumulating helper for whitespace splitting: `cur` holds the current word
reversed. -/
def wordsAux (cur : List Char) : List Char → List (List Char)
  | [] => if cur = [] then [] else [cur.reverse]
  | c :: cs =>
    if pySpace c then
      if cur = [] then wordsAux [] cs else cur.reverse :: wordsAux [] cs
    else wordsAux (c :: cur) cs

/-- Python `str.split()` with no arguments: split on runs of whitespace,
discarding empty pieces. -/
def pySplit (s : String) : List String :=
  (wordsAux [] s.data).map fun l => ⟨l⟩

/-- Python `":" in token` for a 1-character needle. -/
def containsColon (s : String) : Bool :=
  s.data.contains ':'

/-- Python `token.split(":", 1)[0]`: the part of the token before the first
colon (the whole token when there is no colon). -/
def beforeColon (s : String) : String :=
  ⟨s.data.takeWhile (· ≠ ':')⟩

/-! ### Python `int()` (base 10)

`int(s)` strips surrounding whitespace, accepts an optional sign and then a
nonempty digit sequence in which single underscores may appear between
digits.  Any other input raises `ValueError`; we return `none` there. -/

/-- Digit-run accumulator for `pyInt`: digits with single underscores allowed
between digits. -/
def pyDigitsAux : Nat → List Char → Option Nat
  | acc, [] => some acc
  | acc, c :: rest =>
    if c = '_' then
      match rest with
      | c2 :: rest2 =>
        if pyDigit c2 then pyDigitsAux (acc * 10 + digitVal c2) rest2 else none
      | [] => none
    else if pyDigit c then pyDigitsAux (acc * 10 + digitVal c) rest else none

/-- Nonempty digit sequence (underscore-separated) as a natural number. -/
def pyDigits : List Char → Option Nat
  | [] => none
  | c :: rest => if pyDigit c then pyDigitsAux (digitVal c) rest else none

/-- Python `int(s)` for base 10 (`none` models `ValueError`). -/
def pyInt (s : String) : Option Int :=
  match (s.data.dropWhile pySpace).reverse.dropWhile pySpace |>.reverse with
  | [] => none
  | c :: rest =>
    if c = '-' then (pyDigits rest).map fun n => -(n : Int)
    else if c = '+' then (pyDigits rest).map fun n => (n : Int)
    else (pyDigits (c :: rest)).map fun n => (n : Int)

/-- Plain value of an all-digit character list. -/
def digitsVal (l : List Char) : Nat :=
  l.foldl (fun acc c => acc * 10 + digitVal c) 0

example : pyInt "1043" = some 1043 := by decide
example : pyInt "-15" = some (-15) := by decide
example : pyInt "abc" = none := by decide
example : pyInt "-" = none := by decide
example : pyInt " 42 " = some 42 := by decide
example : pyInt "1_0" = some 10 := by decide
example : pyInt "1__0" = none := by decide
example : pySplit "  10.0.0.6:50010  10.0.0.7:50010 " =
    ["10.0.0.6:50010", "10.0.0.7:50010"] := by decide
example : beforeColon "10.0.0.6:50010" = "10.0.0.6" := by decide

/-! ### Timestamps (`src/ingest/timestamps.py`)

`ts_apache` is `datetime.strptime(s, "%d/%b/%Y:%H:%M:%S %z")` and
`ts_hdfs_compact` is `datetime.strptime(date + time, "%y%m%d%H%M%S")`.
CPython compiles each directive to an ordered regex alternation
(`_strptime.TimeRE`); we reproduce those alternations and the backtracking
search, then the "unconverted data remains" length check, then the
`datetime(...)` constructor validation.  A failed parse raises `ValueError`,
modelled as `none`. -/

/-- A parsed `datetime`: all-Nat fields plus an optional UTC offset in
seconds (`none` for a naive datetime). -/
structure PyDateTime where
  year : Nat
  month : Nat
  day : Nat
  hour : Nat
  minute : Nat
  second : Nat
  tzSeconds : Option Int
deriving DecidableEq, Repr

/-- Gregorian leap-year rule used by `datetime`. -/
def isLeap (y : Nat) : Bool :=
  y % 4 = 0 && (y % 100 ≠ 0 || y % 400 = 0)

/-- Days in a month per `datetime`. -/
def daysInMonth (y m : Nat) : Nat :=
  if m = 2 then (if isLeap y then 29 else 28)
  else if m = 4 || m = 6 || m = 9 || m = 11 then 30
  else 31

/-- The `datetime(...)` constructor checks; also validates a `timezone`
offset, which must lie strictly between -24h and +24h. -/
def mkPyDateTime (y m d h mi s : Nat) (tz : Option Int) : Option PyDateTime :=
  if 1 ≤ y ∧ y ≤ 9999 ∧ 1 ≤ m ∧ m ≤ 12 ∧ 1 ≤ d ∧ d ≤ daysInMonth y m ∧
      h ≤ 23 ∧ mi ≤ 59 ∧ s ≤ 59 ∧
      (∀ off ∈ tz, -86400 < off ∧ off < 86400) then
    some ⟨y, m, d, h, mi, s, tz⟩
  else none

/-- Candidate: a two-digit number whose digits lie in the given ranges. -/
def twoDigitIn (lo1 hi1 lo2 hi2 : Char) : List Char → Option (Nat × List Char)
  | a :: b :: r =>
    if lo1 ≤ a ∧ a ≤ hi1 ∧ lo2 ≤ b ∧ b ≤ hi2 then
      some (10 * digitVal a + digitVal b, r)
    else none
  | _ => none

/-- Candidate: a single digit in the given range. -/
def oneDigitIn (lo hi : Char) : List Char → Option (Nat × List Char)
  | a :: r => if lo ≤ a ∧ a ≤ hi then some (digitVal a, r) else none
  | _ => none

/-- `%d` alternation: `3[0-1]|[1-2]\d|0[1-9]|[1-9]| [1-9]`. -/
def dayCands (cs : List Char) : List (Nat × List Char) :=
  let spaceForm : Option (Nat × List Char) :=
    match cs with
    | ' ' :: b :: r =>
      if '1' ≤ b ∧ b ≤ '9' then some (digitVal b, r) else none
    | _ => none
  [twoDigitIn '3' '3' '0' '1' cs, twoDigitIn '1' '2' '0' '9' cs,
   twoDigitIn '0' '0' '1' '9' cs, oneDigitIn '1' '9' cs,
   spaceForm].reduceOption

/-- `%m` alternation: `1[0-2]|0[1-9]|\d`. -/
def monthCands (cs : List Char) : List (Nat × List Char) :=
  [twoDigitIn '1' '1' '0' '2' cs, twoDigitIn '0' '0' '1' '9' cs,
   oneDigitIn '0' '9' cs].reduceOption

/-- `%H` alternation: `2[0-3]|[0-1]\d|\d`. -/
def hourCands (cs : List Char) : List (Nat × List Char) :=
  [twoDigitIn '2' '2' '0' '3' cs, twoDigitIn '0' '1' '0' '9' cs,
   oneDigitIn '0' '9' cs].reduceOption

/-- `%M` alternation: `[0-5]\d|\d`. -/
def minuteCands (cs : List Char) : List (Nat × List Char) :=
  [twoDigitIn '0' '5' '0' '9' cs, oneDigitIn '0' '9' cs].reduceOption

/-- `%S` alternation: `6[0-1]|[0-5]\d|\d`. -/
def secondCands (cs : List Char) : List (Nat × List Char) :=
  [twoDigitIn '6' '6' '0' '1' cs, twoDigitIn '0' '5' '0' '9' cs,
   oneDigitIn '0' '9' cs].reduceOption

/-- `%y` alternation: `\d\d`, with the CPython pivot (≤ 68 → 2000s). -/
def yy2Cands (cs : List Char) : List (Nat × List Char) :=
  [twoDigitIn '0' '9' '0' '9' cs].reduceOption

/-- `%Y`: `\d\d\d\d`. -/
def year4Cands : List Char → List (Nat × List Char)
  | a :: b :: c :: d :: r =>
    if pyDigit a ∧ pyDigit b ∧ pyDigit c ∧ pyDigit d then
      [(1000 * digitVal a + 100 * digitVal b + 10 * digitVal c + digitVal d, r)]
    else []
  | _ => []

/-- `%b`: three letters, case-insensitively one of the C-locale month
abbreviations. -/
def monthAbbrevCands : List Char → List (Nat × List Char)
  | a :: b :: c :: r =>
    let w : String := ⟨[a.toLower, b.toLower, c.toLower]⟩
    let names := ["jan", "feb", "mar", "apr", "may", "jun",
                  "jul", "aug", "sep", "oct", "nov", "dec"]
    match names.indexOf? w with
    | some i => [(i + 1, r)]
    | none => []
  | _ => []

/-- Consume one literal character. -/
def litChar (c : Char) : List Char → Option (List Char)
  | x :: r => if x = c then some r else none
  | _ => none

/-- Consume a nonempty whitespace run (`\s+`). -/
def ws1 (cs : List Char) : Option (List Char) :=
  let r := cs.dropWhile pySpace
  if r.length = cs.length then none else some r

/-- `%z`: `[+-]\d\d:?\d\d(:?\d\d(\.\d{1,6})?)?|Z`, yielding the UTC offset in
seconds.  The optional seconds and fraction parts are consumed greedily; the
fraction is accepted but (as a sub-minute quantity rounded into microseconds)
ignored for the offset whole-second count here since all captured fractions of
the form `.d{1,6}` only affect microseconds. -/
def tzCands (cs : List Char) : List (Int × List Char) :=
  let signed : Option (Int × List Char) :=
    match cs with
    | sgn :: h1 :: h2 :: rest =>
      if (sgn = '+' ∨ sgn = '-') ∧ pyDigit h1 ∧ pyDigit h2 then
        let afterColon := match rest with
          | ':' :: r => r
          | r => r
        match afterColon with
        | m1 :: m2 :: rest2 =>
          if pyDigit m1 ∧ pyDigit m2 then
            let base := (10 * digitVal h1 + digitVal h2) * 3600 +
                        (10 * digitVal m1 + digitVal m2) * 60
            let secPart : Option (Nat × List Char) :=
              (match rest2 with
                | ':' :: s1 :: s2 :: rest3 =>
                  if pyDigit s1 ∧ pyDigit s2 then
                    some (10 * digitVal s1 + digitVal s2, rest3)
                  else none
                | s1 :: s2 :: rest3 =>
                  if pyDigit s1 ∧ pyDigit s2 then
                    some (10 * digitVal s1 + digitVal s2, rest3)
                  else none
                | _ => none)
            let withFrac : Option (Nat × List Char) :=
              secPart.map fun (sv, r3) =>
                match r3 with
                | '.' :: r4 =>
                  let ds := r4.takeWhile pyDigit
                  if 1 ≤ ds.length ∧ ds.length ≤ 6 then (sv, r4.dropWhile pyDigit)
                  else (sv, '.' :: r4)
                | r4 => (sv, r4)
            let (total, rem) := match withFrac with
              | some (sv, r3) => (base + sv, r3)
              | none => (base, rest2)
            let signedTotal : Int := if sgn = '-' then -(total : Int) else (total : Int)
            some (signedTotal, rem)
          else none
        | _ => none
      else none
    | _ => none
  let zuluForm : Option (Int × List Char) :=
    match cs with
    | 'Z' :: r => some ((0 : Int), r)
    | _ => none
  [signed, zuluForm].reduceOption

/-- Backtracking match of `"%d/%b/%Y:%H:%M:%S %z"` followed by the
"unconverted data remains" check and `datetime` validation. -/
def ts_apache (s : String) : Option PyDateTime :=
  let scan : Option (Nat × Nat × Nat × Nat × Nat × Nat × Int × List Char) :=
    (dayCands s.data).findSome? fun (d, r1) =>
      (litChar '/' r1).bind fun r2 =>
        (monthAbbrevCands r2).findSome? fun (m, r3) =>
          (litChar '/' r3).bind fun r4 =>
            (year4Cands r4).findSome? fun (y, r5) =>
              (litChar ':' r5).bind fun r6 =>
                (hourCands r6).findSome? fun (h, r7) =>
                  (litChar ':' r7).bind fun r8 =>
                    (minuteCands r8).findSome? fun (mi, r9) =>
                      (litChar ':' r9).bind fun r10 =>
                        (secondCands r10).findSome? fun (sec, r11) =>
                          (ws1 r11).bind fun r12 =>
                            (tzCands r12).findSome? fun (z, r13) =>
                              some (d, m, y, h, mi, sec, z, r13)
  match scan with
  | none => none
  | some (d, m, y, h, mi, sec, z, rest) =>
    if rest = [] then mkPyDateTime y m d h mi sec (some z) else none

/-- Backtracking match of `"%y%m%d%H%M%S"` against `date ++ time`, the
length check, the two-digit-year pivot, and `datetime` validation. -/
def ts_hdfs_compact (date time : String) : Option PyDateTime :=
  let cs := date.data ++ time.data
  let scan : Option (Nat × Nat × Nat × Nat × Nat × Nat × List Char) :=
    (yy2Cands cs).findSome? fun (y, r1) =>
      (monthCands r1).findSome? fun (m, r2) =>
        (dayCands r2).findSome? fun (d, r3) =>
          (hourCands r3).findSome? fun (h, r4) =>
            (minuteCands r4).findSome? fun (mi, r5) =>
              (secondCands r5).findSome? fun (sec, r6) =>
                some (y, m, d, h, mi, sec, r6)
  match scan with
  | none => none
  | some (y, m, d, h, mi, sec, rest) =>
    if rest = [] then
      mkPyDateTime (if y ≤ 68 then y + 2000 else y + 1900) m d h mi sec none
    else none

/-- Zero-padded two-digit decimal rendering. -/
def pad2 (n : Nat) : String :=
  if n < 10 then "0" ++ toString n else toString n

/-- Zero-padded four-digit decimal rendering. -/
def pad4 (n : Nat) : String :=
  if n < 10 then "000" ++ toString n
  else if n < 100 then "00" ++ toString n
  else if n < 1000 then "0" ++ toString n
  else toString n

/-- `datetime.isoformat()`: `YYYY-MM-DDTHH:MM:SS` plus `±HH:MM[:SS]` for an
aware datetime. -/
def isoformat (dt : PyDateTime) : String :=
  let base := pad4 dt.year ++ "-" ++ pad2 dt.month ++ "-" ++ pad2 dt.day ++ "T" ++
    pad2 dt.hour ++ ":" ++ pad2 dt.minute ++ ":" ++ pad2 dt.second
  match dt.tzSeconds with
  | none => base
  | some off =>
    let sgn := if off < 0 then "-" else "+"
    let a := off.natAbs
    base ++ sgn ++ pad2 (a / 3600) ++ ":" ++ pad2 (a % 3600 / 60) ++
      (if a % 60 = 0 then "" else ":" ++ pad2 (a % 60))

example : ts_apache "10/Oct/2020:13:55:36 +0000" =
    some ⟨2020, 10, 10, 13, 55, 36, some 0⟩ := by decide
example : ts_apache "10/Oct/2020:13:55:36" = none := by decide
example : ts_apache "32/Oct/2020:13:55:36 +0000" = none := by decide
example : ts_hdfs_compact "081109" "203518" =
    some ⟨2008, 11, 9, 20, 35, 18, none⟩ := by decide
example : ts_hdfs_compact "999999" "999999" = none := by decide
example : isoformat ⟨2020, 10, 10, 13, 55, 36, some 0⟩ =
    "2020-10-10T13:55:36+00:00" := by decide

/-! ### SHA-1 and UUIDs (`src/ingest/ids.py`, `src/ingest/config.py`)

`deterministic_action_type_id(action)` is
`str(uuid.uuid5(ACTION_TYPE_NAMESPACE, action))` with
`ACTION_TYPE_NAMESPACE = UUID("12345678-1234-5678-1234-567812345678")`.
`uuid5` is the SHA-1 of the namespace bytes followed by the UTF-8 encoding of
the name, truncated to 16 bytes, with the version (5) and RFC-4122 variant
bits set, rendered as the usual hyphenated lowercase hex string.
`write_entry` generates `str(uuid.uuid4())`: 16 random bytes with version (4)
and variant bits set, rendered the same way. -/

/-- UTF-8 encoding of one character. -/
def utf8Char (c : Char) : List Nat :=
  let n := c.toNat
  if n < 0x80 then [n]
  else if n < 0x800 then
    [0xC0 ||| (n >>> 6), 0x80 ||| (n &&& 0x3F)]
  else if n < 0x10000 then
    [0xE0 ||| (n >>> 12), 0x80 ||| ((n >>> 6) &&& 0x3F), 0x80 ||| (n &&& 0x3F)]
  else
    [0xF0 ||| (n >>> 18), 0x80 ||| ((n >>> 12) &&& 0x3F),
     0x80 ||| ((n >>> 6) &&& 0x3F), 0x80 ||| (n &&& 0x3F)]

/-- UTF-8 encoding of a string as a byte list. -/
def utf8Bytes (s : String) : List Nat :=
  (s.data.map utf8Char).flatten

/-- 32-bit left rotation. -/
def rotl32 (n x : Nat) : Nat :=
  ((x <<< n) ||| (x >>> (32 - n))) &&& 0xFFFFFFFF

/-- Big-endian 8-byte rendering of a (64-bit) number. -/
def bytesBE8 (n : Nat) : List Nat :=
  [(n >>> 56) &&& 255, (n >>> 48) &&& 255, (n >>> 40) &&& 255,
   (n >>> 32) &&& 255, (n >>> 24) &&& 255, (n >>> 16) &&& 255,
   (n >>> 8) &&& 255, n &&& 255]

/-- Big-endian 4-byte rendering of a 32-bit word. -/
def bytesBE4 (n : Nat) : List Nat :=
  [(n >>> 24) &&& 255, (n >>> 16) &&& 255, (n >>> 8) &&& 255, n &&& 255]

/-- SHA-1 padding: append `0x80`, zeros to 56 mod 64, and the bit length. -/
def sha1Pad (msg : List Nat) : List Nat :=
  let r := msg.length % 64
  let k := (119 - r) % 64
  msg ++ 0x80 :: List.replicate k 0 ++ bytesBE8 (8 * msg.length)

/-- Split a byte list into 64-byte chunks (fuel-driven). -/
def chunksAux : Nat → List Nat → List (List Nat)
  | 0, _ => []
  | _ + 1, [] => []
  | fuel + 1, l => l.take 64 :: chunksAux fuel (l.drop 64)

/-- Pack bytes into big-endian 32-bit words. -/
def toWords32 : List Nat → List Nat
  | b0 :: b1 :: b2 :: b3 :: rest =>
    ((b0 <<< 24) ||| (b1 <<< 16) ||| (b2 <<< 8) ||| b3) :: toWords32 rest
  | _ => []

/-- Message-schedule expansion; `acc` holds the words generated so far in
reverse order. -/
def sha1Expand : Nat → List Nat → List Nat
  | 0, acc => acc
  | n + 1, acc =>
    let w := rotl32 1 (acc.getD 2 0 ^^^ acc.getD 7 0 ^^^ acc.getD 13 0 ^^^ acc.getD 15 0)
    sha1Expand n (w :: acc)

/-- One SHA-1 compression round. -/
def sha1Round (st : Nat × Nat × Nat × Nat × Nat) (iw : Nat × Nat) :
    Nat × Nat × Nat × Nat × Nat :=
  let (a, b, c, d, e) := st
  let (i, w) := iw
  let f :=
    if i < 20 then (b &&& c) ||| ((b ^^^ 0xFFFFFFFF) &&& d)
    else if i < 40 then b ^^^ c ^^^ d
    else if i < 60 then (b &&& c) ||| (b &&& d) ||| (c &&& d)
    else b ^^^ c ^^^ d
  let k :=
    if i < 20 then 0x5A827999
    else if i < 40 then 0x6ED9EBA1
    else if i < 60 then 0x8F1BBCDC
    else 0xCA62C1D6
  let temp := (rotl32 5 a + f + e + k + w) &&& 0xFFFFFFFF
  (temp, a, rotl32 30 b, c, d)

/-- Process one 64-byte chunk. -/
def sha1Chunk (h : Nat × Nat × Nat × Nat × Nat) (chunk : List Nat) :
    Nat × Nat × Nat × Nat × Nat :=
  let w16 := toWords32 chunk
  let w80 := (sha1Expand 64 w16.reverse).reverse
  let (h0, h1, h2, h3, h4) := h
  let (a, b, c, d, e) := w80.enum.foldl sha1Round (h0, h1, h2, h3, h4)
  ((h0 + a) &&& 0xFFFFFFFF, (h1 + b) &&& 0xFFFFFFFF, (h2 + c) &&& 0xFFFFFFFF,
   (h3 + d) &&& 0xFFFFFFFF, (h4 + e) &&& 0xFFFFFFFF)

/-- SHA-1 digest (20 bytes) of a byte list. -/
def sha1 (msg : List Nat) : List Nat :=
  let padded := sha1Pad msg
  let chunks := chunksAux padded.length padded
  let (h0, h1, h2, h3, h4) :=
    chunks.foldl sha1Chunk (0x67452301, 0xEFCDAB89, 0x98BADCFE, 0x10325476, 0xC3D2E1F0)
  bytesBE4 h0 ++ bytesBE4 h1 ++ bytesBE4 h2 ++ bytesBE4 h3 ++ bytesBE4 h4

/-- Lowercase hex digit. -/
def hexDigitChar (n : Nat) : Char :=
  if n < 10 then Char.ofNat ('0'.toNat + n) else Char.ofNat ('a'.toNat + n - 10)

/-- Two lowercase hex characters of a byte. -/
def byteHex (b : Nat) : List Char :=
  [hexDigitChar (b / 16 % 16), hexDigitChar (b % 16)]

/-- `str(UUID(...))`: 32 hex characters with hyphens in 8-4-4-4-12 layout. -/
def uuidStringOfBytes (bs : List Nat) : String :=
  let h := (bs.map byteHex).flatten
  ⟨h.take 8 ++ '-' :: (h.drop 8).take 4 ++ '-' :: (h.drop 12).take 4 ++
    '-' :: (h.drop 16).take 4 ++ '-' :: h.drop 20⟩

/-- Set the UUID version and RFC-4122 variant bits on 16 bytes. -/
def setVersion (version : Nat) (bs : List Nat) : List Nat :=
  bs.enum.map fun (i, b) =>
    if i = 6 then (b &&& 0x0F) ||| (version <<< 4)
    else if i = 8 then (b &&& 0x3F) ||| 0x80
    else b

/-- Byte form of `ACTION_TYPE_NAMESPACE = UUID("12345678-1234-5678-1234-567812345678")`
(`src/ingest/config.py`). -/
def ACTION_TYPE_NAMESPACE : List Nat :=
  [0x12, 0x34, 0x56, 0x78, 0x12, 0x34, 0x56, 0x78,
   0x12, 0x34, 0x56, 0x78, 0x12, 0x34, 0x56, 0x78]

/-- `uuid.uuid5(namespace, name)` rendered with `str`. -/
def uuid5_str (ns : List Nat) (name : String) : String :=
  uuidStringOfBytes (setVersion 5 ((sha1 (ns ++ utf8Bytes name)).take 16))

/-- `deterministic_action_type_id` (`src/ingest/ids.py`): the stable
content-derived identifier of an action name. -/
def deterministic_action_type_id (action : String) : String :=
  uuid5_str ACTION_TYPE_NAMESPACE action

/-- `str(uuid.uuid4())` as a function of the 16 random bytes drawn from
`os.urandom`, modelled as a byte supply `rand`. -/
def uuid4_str (rand : Nat → Nat) : String :=
  uuidStringOfBytes (setVersion 4 ((List.range 16).map fun i => rand i % 256))

/-! ### Log types and staged rows (`src/ingest/util.py`, `config.py`, `writers.py`) -/

/-- `LogType` enumeration (`src/ingest/util.py`). -/
inductive LogType where
  | ACCESS
  | HDFS_DATAXCEIVER
  | HDFS_NAMESYSTEM
deriving DecidableEq, Repr

/-- `LogType.list()`: all members in enumeration order. -/
def LogType.list : List LogType :=
  [.ACCESS, .HDFS_DATAXCEIVER, .HDFS_NAMESYSTEM]

/-- `load_log_type_ids` (`src/ingest/ids.py`): ids in enumeration order
starting from 1. -/
def load_log_type_ids : List (LogType × Nat) :=
  LogType.list.enum.map fun (i, lt) => (lt, i + 1)

/-- A staged `log_entry` CSV row (`ENTRY_FIELDS` in `src/ingest/config.py`).
`block_id`/`size_bytes` cells are ints or empty (`Option Int`); absent IPs are
written as empty strings. -/
structure EntryRow where
  id : String
  log_type_id : Nat
  action_type_id : String
  log_timestamp : String
  source_ip : String
  dest_ip : String
  block_id : Option Int
  size_bytes : Option Int
deriving DecidableEq, Repr

/-- A staged `log_access_detail` CSV row (`ACCESS_DETAIL_FIELDS`).  The
worker's `writerow` dict omits the `http_method` key, so `csv.DictWriter`
fills that cell with its `restval`, the empty string. -/
structure DetailRow where
  log_entry_id : String
  remote_name : String
  auth_user : String
  http_method : String
  resource : String
  http_status : Int
  referrer : Option String
  user_agent : String
deriving DecidableEq, Repr

/-- Python exceptions that the workers can raise. -/
inductive PyErr where
  | valueError (msg : String)
  | attributeError (msg : String)
deriving DecidableEq, Repr

deriving instance DecidableEq for Except

/-- `write_entry` (`src/ingest/writers.py`): stages one `log_entry` row; a
fresh `uuid.uuid4()` (drawn from the byte supply `rand`) becomes the row id.
The `detail` argument is accepted and unused, as in the source. -/
def write_entry (rand : Nat → Nat) (log_type : LogType) (action : String)
    (timestamp : PyDateTime) (source_ip dest_ip : String)
    (block_id size_bytes : Option Int) (detail : List (String × String))
    (log_type_ids : List (LogType × Nat)) : EntryRow :=
  let _ := detail
  { id := uuid4_str rand,
    log_type_id := (log_type_ids.lookup log_type).getD 0,
    action_type_id := action,
    log_timestamp := isoformat timestamp,
    source_ip := source_ip,
    dest_ip := dest_ip,
    block_id := block_id,
    size_bytes := size_bytes }

/-- `set.add`: insert a string if not already present. -/
def pyAdd (l : List String) (a : String) : List String :=
  if a ∈ l then l else l ++ [a]

/-! ### The access-log matcher (`ACCESS_REGEX` in
`src/ingest/workers/access_worker.py`)

Pattern:
`(?P<ip>\S+)\s+(?P<remote_name>\S+)\s+(?P<auth_user>\S+)\s+`
`\[(?P<timestamp>[^]]+)\]\s+"(?P<method>[A-Za-z]+)\s+(?P<resource>[^"]+?)\s+`
`HTTP/[^"]+"\s+(?P<status>\d{3})\s+(?P<size>\S+)\s+"(?P<referrer>[^"]*)"\s+`
`"(?P<agent>[^"]*)"`, applied with `re.match` (anchored at the start only).

Every quantifier adjacency except the lazy `(?P<resource>[^"]+?)` is
deterministic (each greedy run is followed by a character its class
excludes, so backtracking cannot produce a different split).  For the
resource the engine explores the preceding `\s+` longest-first and the lazy
resource shortest-first; the continuation after the closing quote of the
request string is independent of that choice, so the first split that
satisfies `\s+HTTP/[^"]+"` wins.  The matcher below reproduces exactly that
order. -/

/-- Captured groups of `ACCESS_REGEX`. -/
structure AccessGroups where
  ip : String
  remote_name : String
  auth_user : String
  timestamp : String
  method : String
  resource : String
  status : String
  size : String
  referrer : String
  agent : String
deriving DecidableEq, Repr

/-- Greedy nonempty run of characters satisfying `p`. -/
def takeRun1 (p : Char → Bool) (cs : List Char) : Option (List Char × List Char) :=
  match cs.takeWhile p with
  | [] => none
  | t => some (t, cs.dropWhile p)

/-- Probe `\s+HTTP/[^"]+"` at the current position; on success return the
remainder after the closing quote. -/
def httpProbe (cs : List Char) : Option (List Char) :=
  (ws1 cs).bind fun r =>
    match r with
    | 'H' :: 'T' :: 'T' :: 'P' :: '/' :: r2 =>
      (takeRun1 (· ≠ '"') r2).bind fun (_, r3) =>
        match r3 with
        | '"' :: r4 => some r4
        | _ => none
    | _ => none

/-- Lazy scan for `(?P<resource>[^"]+?)` : grow the resource one character at
a time (shortest first), probing the continuation after each character.  A
quote terminates the scan since the resource class excludes it. -/
def resScanAux (seen : List Char) : List Char → Option (List Char × List Char)
  | [] => none
  | c :: cs =>
    if c = '"' then none
    else
      match httpProbe cs with
      | some rest => some ((c :: seen).reverse, rest)
      | none => resScanAux (c :: seen) cs

/-- Explore the `\s+` before the resource longest-first, handing each
remainder to the lazy resource scan. -/
def wsDescend : Nat → List Char → Option (List Char × List Char)
  | 0, _ => none
  | w + 1, cs =>
    match resScanAux [] (cs.drop (w + 1)) with
    | some r => some r
    | none => wsDescend w cs

/-- Parse `\s+(?P<resource>[^"]+?)\s+HTTP/[^"]+"` starting right after the
method capture. -/
def requestTail (cs : List Char) : Option (List Char × List Char) :=
  wsDescend (cs.takeWhile pySpace).length cs

/-- Exactly three decimal digits (`\\d{3}`). -/
def digits3 : List Char → Option (List Char × List Char)
  | a :: b :: c :: r =>
    if pyDigit a ∧ pyDigit b ∧ pyDigit c then some ([a, b, c], r) else none
  | _ => none

/-- A possibly-empty quote-free run followed by a closing quote
(`[^"]*"`). -/
def quotedRun (cs : List Char) : Option (List Char × List Char) :=
  match cs.dropWhile (· ≠ '"') with
  | '"' :: r => some (cs.takeWhile (· ≠ '"'), r)
  | _ => none

/-- `ACCESS_REGEX`, first half: the three `\\S+` captures and the bracketed
timestamp. -/
def accessMatchHead (cs : List Char) :
    Option (List Char × List Char × List Char × List Char × List Char) := do
  let (ip, r1) ← takeRun1 (fun c => !pySpace c) cs
  let r2 ← ws1 r1
  let (remote, r3) ← takeRun1 (fun c => !pySpace c) r2
  let r4 ← ws1 r3
  let (auth, r5) ← takeRun1 (fun c => !pySpace c) r4
  let r6 ← ws1 r5
  let r7 ← litChar '[' r6
  let (tsStr, r8) ← takeRun1 (· ≠ ']') r7
  let r9 ← litChar ']' r8
  let r10 ← ws1 r9
  pure (ip, remote, auth, tsStr, r10)

/-- `ACCESS_REGEX`: status and size captures between the quoted request and
the quoted referrer (`\\s+(?P<status>\\d{3})\\s+(?P<size>\\S+)\\s+`). -/
def accessStatusSize (r13 : List Char) :
    Option (List Char × List Char × List Char) := do
  let r14 ← ws1 r13
  let (statusCs, r15) ← digits3 r14
  let r16 ← ws1 r15
  let (size, r17) ← takeRun1 (fun c => !pySpace c) r16
  let r18 ← ws1 r17
  pure (statusCs, size, r18)

/-- `ACCESS_REGEX`: the two trailing quoted captures. -/
def accessRefAgent (r18 : List Char) : Option (List Char × List Char) := do
  let r19 ← litChar '"' r18
  let (ref, r20) ← quotedRun r19
  let r21 ← ws1 r20
  let r22 ← litChar '"' r21
  let (agent, _) ← quotedRun r22
  pure (ref, agent)

/-- `ACCESS_REGEX`, second half assembled. -/
def accessMatchTail (r10 : List Char) :
    Option (List Char × List Char × List Char × List Char × List Char × List Char) := do
  let r11 ← litChar '"' r10
  let (method, r12) ← takeRun1 asciiAlpha r11
  let (res, r13) ← requestTail r12
  let (statusCs, size, r18) ← accessStatusSize r13
  let (ref, agent) ← accessRefAgent r18
  pure (method, res, statusCs, size, ref, agent)

/-- The full `ACCESS_REGEX` matcher. -/
def accessMatch (line : String) : Option AccessGroups := do
  let (ip, remote, auth, tsStr, r10) ← accessMatchHead line.data
  let (method, res, statusCs, size, ref, agent) ← accessMatchTail r10
  pure { ip := ⟨ip⟩, remote_name := ⟨remote⟩, auth_user := ⟨auth⟩,
         timestamp := ⟨tsStr⟩, method := ⟨method⟩, resource := ⟨res⟩,
         status := ⟨statusCs⟩, size := ⟨size⟩, referrer := ⟨ref⟩,
         agent := ⟨agent⟩ }

/-! ### The access parse worker
(`parse_access_worker` in `src/ingest/workers/access_worker.py`)

The per-line loop: a non-matching line is silently skipped; on a match the
timestamp is converted (`ts_apache`), the method is added to the
observed-action set, the size field is converted unless it is `""` or `"-"`,
one `log_entry` row and one `log_access_detail` row are staged.  There is no
`try`/`except`: a `ValueError` from `strptime` or `int` propagates and kills
the worker, modelled as `.error`.  `e` supplies the `uuid.uuid4()` bytes of
the `k`-th staged entry row. -/

/-- `int(fields[...])` where failure raises `ValueError`. -/
def intField (s : String) : Except PyErr Int :=
  match pyInt s with
  | some v => .ok v
  | none => .error (.valueError ("invalid literal for int() with base 10: " ++ s))

/-- `int(fields["size"]) if fields["size"] not in {"", "-"} else ""`. -/
def sizeFieldVal (s : String) : Except PyErr (Option Int) :=
  if s = "" ∨ s = "-" then .ok none
  else (intField s).map some

/-- `ts_apache(...)` where failure raises `ValueError`. -/
def tsApacheField (s : String) : Except PyErr PyDateTime :=
  match ts_apache s with
  | some t => .ok t
  | none => .error (.valueError ("time data " ++ s ++ " does not match format"))

/-- `ts_hdfs_compact(...)` where failure raises `ValueError`. -/
def tsHdfsField (date time : String) : Except PyErr PyDateTime :=
  match ts_hdfs_compact date time with
  | some t => .ok t
  | none => .error (.valueError ("time data " ++ date ++ time ++ " does not match format"))

/-- The `log_entry` row the access worker stages for a matched line. -/
def mkAccessRow (rand : Nat → Nat) (g : AccessGroups) (ts : PyDateTime)
    (size : Option Int) : EntryRow :=
  write_entry rand .ACCESS (deterministic_action_type_id g.method) ts g.ip ""
    none size [] load_log_type_ids

/-- The `log_access_detail` row the access worker stages for a matched line;
the `writerow` dict has no `http_method` key, so that cell gets the
`DictWriter` restval `""`. -/
def mkAccessDetail (entryId : String) (g : AccessGroups) (st : Int) : DetailRow :=
  { log_entry_id := entryId, remote_name := g.remote_name,
    auth_user := g.auth_user, http_method := "",
    resource := g.resource, http_status := st,
    referrer := if g.referrer = "-" then none else some g.referrer,
    user_agent := g.agent }

/-- The access worker's per-file loop over raw input lines.  Returns the
staged `log_entry` rows, `log_access_detail` rows, and the observed action
names that `write_action_types` would write at end of run. -/
def parse_access_worker (e : Nat → Nat → Nat) (k : Nat) (names : List String) :
    List String → Except PyErr (List EntryRow × List DetailRow × List String)
  | [] => .ok ([], [], names)
  | raw :: rest =>
    match accessMatch (rstripNewlines raw) with
    | none => parse_access_worker e k names rest
    | some g =>
      match tsApacheField g.timestamp with
      | .error err => .error err
      | .ok ts =>
        let names1 := pyAdd names g.method
        match sizeFieldVal g.size with
        | .error err => .error err
        | .ok size =>
          let row := mkAccessRow (e k) g ts size
          match intField g.status with
          | .error err => .error err
          | .ok st =>
            match parse_access_worker e (k + 1) names1 rest with
            | .error err => .error err
            | .ok (rs, ds, ns) =>
              .ok (row :: rs, mkAccessDetail row.id g st :: ds, ns)

/-! ### The namesystem matchers
(`NAMESYS_UPDATE_REGEX`, `NAMESYS_ASK_REPLICATE_REGEX` in
`src/ingest/workers/namesystem_worker.py`)

Both are `re.VERBOSE` patterns anchored with `^...$`.  NOTE: in the update
pattern the fragment `blockMap updated:` contains an unescaped space, which
`re.VERBOSE` discards, so the compiled literal is `blockMapupdated:`.  The
matchers below reproduce that.  All quantifier adjacencies are deterministic
except the update pattern's lazy `.*?`, reproduced as a shortest-first
scan. -/

/-- Captured groups of `NAMESYS_ASK_REPLICATE_REGEX`. -/
structure ReplGroups where
  date : String
  time : String
  tid : String
  src_ip : String
  block : String
  dest_list : String
deriving DecidableEq, Repr

/-- Captured groups of `NAMESYS_UPDATE_REGEX` (the size group may be
unmatched). -/
structure UpdGroups where
  date : String
  time : String
  tid : String
  ip : String
  block : String
  size : Option String
deriving DecidableEq, Repr

/-- Consume a literal character sequence. -/
def litStr : List Char → List Char → Option (List Char)
  | [], cs => some cs
  | p :: ps, c :: cs => if c = p then litStr ps cs else none
  | _ :: _, [] => none

/-- Exactly six decimal digits (`\d{6}`). -/
def digits6 : List Char → Option (List Char × List Char)
  | a :: b :: c :: d :: e :: f :: r =>
    if pyDigit a ∧ pyDigit b ∧ pyDigit c ∧ pyDigit d ∧ pyDigit e ∧ pyDigit f then
      some ([a, b, c, d, e, f], r)
    else none
  | _ => none

/-- `-?\d+`: optional minus sign then a nonempty digit run. -/
def signedDigits (cs : List Char) : Option (List Char × List Char) :=
  match cs with
  | [] => none
  | c :: r =>
    if c = '-' then (takeRun1 pyDigit r).map fun (ds, r2) => ('-' :: ds, r2)
    else takeRun1 pyDigit (c :: r)

/-- `[0-9.]+:\d+`, returning the captured ip part. -/
def ipPort (cs : List Char) : Option (List Char × List Char) := do
  let (ip, r1) ← takeRun1 ipChar cs
  let r2 ← litChar ':' r1
  let (_, r3) ← takeRun1 pyDigit r2
  pure (ip, r3)

/-- `^\d{6}\s+\d{6}\s+\d+\s+INFO\s+` — the timestamped level-tagged head
shared by the HDFS patterns. -/
def hdfsStamp (cs : List Char) : Option (List Char × List Char × List Char × List Char) := do
  let (date, r1) ← digits6 cs
  let r2 ← ws1 r1
  let (time, r3) ← digits6 r2
  let r4 ← ws1 r3
  let (tid, r5) ← takeRun1 pyDigit r4
  let r6 ← ws1 r5
  let r7 ← litStr "INFO".data r6
  let r8 ← ws1 r7
  pure (date, time, tid, r8)

/-- Shared head of both namesystem patterns:
`^\d{6}\s+\d{6}\s+\d+\s+INFO\s+dfs\.FSNamesystem:\s+BLOCK\*\s+`. -/
def nsHead (cs : List Char) : Option (List Char × List Char × List Char × List Char) := do
  let (date, time, tid, r8) ← hdfsStamp cs
  let r9 ← litStr "dfs.FSNamesystem:".data r8
  let r10 ← ws1 r9
  let r11 ← litStr "BLOCK*".data r10
  let r12 ← ws1 r11
  pure (date, time, tid, r12)

/-- One iteration of `(?:[0-9.]+:\d+\s*)+`: a destination token and the
whitespace the `\s*` absorbs, both part of the `dest_list` capture. -/
def destIter (cs : List Char) : Option (List Char × List Char) := do
  let (ip, r1) ← takeRun1 ipChar cs
  let r2 ← litChar ':' r1
  let (ds, r3) ← takeRun1 pyDigit r2
  pure (ip ++ ':' :: ds ++ r3.takeWhile pySpace, r3.dropWhile pySpace)

/-- Greedy repetition of `destIter` (one or more). -/
def destLoop : Nat → List Char → Option (List Char × List Char)
  | 0, _ => none
  | fuel + 1, cs =>
    match destIter cs with
    | none => none
    | some (c1, r1) =>
      match destLoop fuel r1 with
      | some (c2, r2) => some (c1 ++ c2, r2)
      | none => some (c1, r1)

/-- Middle of the replicate pattern:
`ask\s+(?P<src_ip>[0-9.]+):\d+\s+to\s+replicate\s+blk_(?P<block>-?\d+)`. -/
def replMid (cs : List Char) : Option (List Char × List Char × List Char) := do
  let r1 ← litStr "ask".data cs
  let r2 ← ws1 r1
  let (src, r3) ← ipPort r2
  let r4 ← ws1 r3
  let r5 ← litStr "to".data r4
  let r6 ← ws1 r5
  let r7 ← litStr "replicate".data r6
  let r8 ← ws1 r7
  let r9 ← litStr "blk_".data r8
  let (blockCs, r10) ← signedDigits r9
  pure (src, blockCs, r10)

/-- Tail of the replicate pattern:
`\s+to\s+datanode\(s\)\s+(?P<dest_list>(?:[0-9.]+:\d+\s*)+)$`. -/
def replTail (cs : List Char) : Option (List Char) := do
  let r1 ← ws1 cs
  let r2 ← litStr "to".data r1
  let r3 ← ws1 r2
  let r4 ← litStr "datanode(s)".data r3
  let r5 ← ws1 r4
  let (dl, r6) ← destLoop (r5.length + 1) r5
  if r6 = [] then pure dl else none

/-- The full `NAMESYS_ASK_REPLICATE_REGEX` matcher. -/
def replicateMatch (line : String) : Option ReplGroups := do
  let (date, time, tid, r) ← nsHead line.data
  let (src, blockCs, r10) ← replMid r
  let dl ← replTail r10
  pure { date := ⟨date⟩, time := ⟨time⟩, tid := ⟨tid⟩, src_ip := ⟨src⟩,
         block := ⟨blockCs⟩, dest_list := ⟨dl⟩ }

/-- Word characters for `\w+` (ASCII fragment). -/
def wordChar (c : Char) : Bool :=
  asciiAlpha c || pyDigit c || c = '_'

/-- The greedy optional tail `(?:\s+size\s+(?P<size>\d+))?$` tried with the
size branch first. -/
def sizeOptEnd (cs : List Char) : Option (Option (List Char)) :=
  match (do
    let r1 ← ws1 cs
    let r2 ← litStr "size".data r1
    let r3 ← ws1 r2
    let (ds, r4) ← takeRun1 pyDigit r3
    if r4 = [] then some ds else none : Option (List Char)) with
  | some ds => some (some ds)
  | none => if cs = [] then some none else none

/-- Probe `blk_(?P<block>-?\d+)(?:\s+size\s+(?P<size>\d+))?$` at the current
position. -/
def blkProbe (cs : List Char) : Option (List Char × Option (List Char)) := do
  let r1 ← litStr "blk_".data cs
  let (b, r2) ← signedDigits r1
  let size ← sizeOptEnd r2
  pure (b, size)

/-- The lazy `.*?` scan ahead of `blk_`, shortest first (`.` does not cross a
newline). -/
def blkScan : Nat → List Char → Option (List Char × Option (List Char))
  | 0, _ => none
  | fuel + 1, cs =>
    match blkProbe cs with
    | some r => some r
    | none =>
      match cs with
      | [] => none
      | c :: rest => if c = '\n' then none else blkScan fuel rest

/-- The full `NAMESYS_UPDATE_REGEX` matcher.  Because `re.VERBOSE` discards
the unescaped space in `blockMap updated:`, the literal really compiled is
`blockMapupdated:`. -/
def updateMatch (line : String) : Option UpdGroups := do
  let (date, time, tid, r) ← nsHead line.data
  let r1 ← litStr "NameSystem.".data r
  let (_, r2) ← takeRun1 wordChar r1
  let r3 ← litChar ':' r2
  let r4 ← ws1 r3
  let r5 ← litStr "blockMapupdated:".data r4
  let r6 ← ws1 r5
  let (ip, r7) ← ipPort r6
  let (blockCs, size) ← blkScan (r7.length + 1) r7
  pure { date := ⟨date⟩, time := ⟨time⟩, tid := ⟨tid⟩, ip := ⟨ip⟩,
         block := ⟨blockCs⟩, size := size.map fun l => ⟨l⟩ }

/-! ### The namesystem extractors and worker loop
(`add_update`, `add_replicate`, `parse_namesystem_worker` in
`src/ingest/workers/namesystem_worker.py`) -/

/-- Truthiness of `fields.get("size")`: `None` and `""` are falsy. -/
def pyTruthy : Option String → Bool
  | some s => s ≠ ""
  | none => false

/-- `int(fields["size"]) if fields.get("size") else ""` for the update
extractors. -/
def updSizeVal (g : UpdGroups) : Except PyErr (Option Int) :=
  if pyTruthy g.size then (intField (g.size.getD "")).map some else .ok none

/-- `add_update`: stage one `update` row.  Note the matched IP is passed as
`source_ip` and `dest_ip` is left empty, and the action name is added to the
observed set before any conversion can raise. -/
def add_update (e : Nat → Nat → Nat) (k : Nat) (names : List String)
    (g : UpdGroups) : Except PyErr (EntryRow × List String) :=
  let names1 := pyAdd names "update"
  match tsHdfsField g.date g.time with
  | .error err => .error err
  | .ok ts =>
    match updSizeVal g with
    | .error err => .error err
    | .ok size =>
      match intField g.block with
      | .error err => .error err
      | .ok b =>
        .ok (write_entry (e k) .HDFS_NAMESYSTEM (deterministic_action_type_id "update")
          ts g.ip "" (some b) size [] load_log_type_ids, names1)

/-- The `for token in fields["dest_list"].split()` loop of `add_replicate`:
tokens without a colon are skipped, each emitted row draws the next
`uuid.uuid4()`. -/
def add_replicate_rows (e : Nat → Nat → Nat) (k : Nat) (ts : PyDateTime)
    (src : String) (b : Int) : List String → Nat → List EntryRow
  | [], _ => []
  | t :: rest, i =>
    if containsColon t then
      write_entry (e (k + i)) .HDFS_NAMESYSTEM (deterministic_action_type_id "replicate")
          ts src (beforeColon t) (some b) none [] load_log_type_ids ::
        add_replicate_rows e k ts src b rest (i + 1)
    else add_replicate_rows e k ts src b rest i

/-- `add_replicate`: one row per destination token carrying a colon. -/
def add_replicate (e : Nat → Nat → Nat) (k : Nat) (names : List String)
    (g : ReplGroups) : Except PyErr (List EntryRow × List String) :=
  let names1 := pyAdd names "replicate"
  match tsHdfsField g.date g.time with
  | .error err => .error err
  | .ok ts =>
    match intField g.block with
    | .error err => .error err
    | .ok b =>
      .ok (add_replicate_rows e k ts g.src_ip b (pySplit g.dest_list) 0, names1)

/-- The namesystem worker's per-file loop: update pattern first, then
replicate, otherwise the line is skipped. -/
def parse_namesystem_worker (e : Nat → Nat → Nat) (k : Nat) (names : List String) :
    List String → Except PyErr (List EntryRow × List String)
  | [] => .ok ([], names)
  | raw :: rest =>
    let line := rstripNewlines raw
    match updateMatch line with
    | some g =>
      match add_update e k names g with
      | .error err => .error err
      | .ok (row, names1) =>
        match parse_namesystem_worker e (k + 1) names1 rest with
        | .error err => .error err
        | .ok (rs, ns) => .ok (row :: rs, ns)
    | none =>
      match replicateMatch line with
      | some g =>
        match add_replicate e k names g with
        | .error err => .error err
        | .ok (rows, names1) =>
          match parse_namesystem_worker e (k + rows.length) names1 rest with
          | .error err => .error err
          | .ok (rs, ns) => .ok (rows ++ rs, ns)
      | none => parse_namesystem_worker e k names rest

/-! ### The historical extractor `build_namesystem_update`
(`src/ingest/parser.py`)

That revision represents a parsed record as a dict with `Option` fields and
puts the matched IP of a `blockMap updated` line in `dest_ip` (with
`source_ip = None`), unlike `add_update` above. -/

/-- A parsed record dict of `src/ingest/parser.py` (`make_row` keys). -/
structure NsRow where
  log_type_name : String
  action_type_name : String
  timestamp : PyDateTime
  source_ip : Option String
  dest_ip : Option String
  block_id : Option Int
  size_bytes : Option Int
deriving DecidableEq, Repr

/-- `build_namesystem_update` (`src/ingest/parser.py`): exactly one record,
IP in `dest_ip`, optional size. -/
def build_namesystem_update (g : UpdGroups) : Except PyErr (List NsRow) :=
  match tsHdfsField g.date g.time with
  | .error err => .error err
  | .ok ts =>
    match updSizeVal g with
    | .error err => .error err
    | .ok size =>
      match intField g.block with
      | .error err => .error err
      | .ok b =>
        .ok [{ log_type_name := "HDFS_NAMESYSTEM", action_type_name := "update",
               timestamp := ts, source_ip := none, dest_ip := some g.ip,
               block_id := some b, size_bytes := size }]

/-! ### The DataXceiver matcher and worker
(`DATAX_REGEX`, `add_receiving`, `add_received`, `add_served`,
`parse_dataxceiver_worker` in `src/ingest/workers/dataxceiver_worker.py`)

Three ordered alternatives (receiving / received / served) behind a shared
timestamped head, anchored `^...$`.  The `received` alternative's two lazy
`.*?` gaps are reproduced as shortest-first scans; all other adjacencies are
deterministic. -/

/-- Captured groups of `DATAX_REGEX`; per-alternative groups are `none` when
their alternative did not match. -/
structure DataxGroups where
  date : String
  time : String
  tid : String
  op_receiving : Option String := none
  blk_receiving : Option String := none
  src_receiving : Option String := none
  dst_receiving : Option String := none
  op_received : Option String := none
  blk_received : Option String := none
  src_received : Option String := none
  dst_received : Option String := none
  size_received : Option String := none
  op_served : Option String := none
  src_served : Option String := none
  blk_served : Option String := none
  dst_served : Option String := none
deriving DecidableEq, Repr

/-- Head `^\d{6}\s+\d{6}\s+\d+\s+INFO\s+dfs\.DataNode\$DataXceiver:\s+`. -/
def dataxHead (cs : List Char) : Option (List Char × List Char × List Char × List Char) := do
  let (date, time, tid, r8) ← hdfsStamp cs
  let r9 ← litStr "dfs.DataNode$DataXceiver:".data r8
  let r10 ← ws1 r9
  pure (date, time, tid, r10)

/-- `src:\s+/(?P<src>[0-9.]+):\d+\s+dest:\s+/(?P<dst>[0-9.]+):\d+`. -/
def srcDestPart (cs : List Char) : Option (List Char × List Char × List Char) := do
  let r1 ← litStr "src:".data cs
  let r2 ← ws1 r1
  let r3 ← litChar '/' r2
  let (src, r4) ← ipPort r3
  let r5 ← ws1 r4
  let r6 ← litStr "dest:".data r5
  let r7 ← ws1 r6
  let r8 ← litChar '/' r7
  let (dst, r9) ← ipPort r8
  pure (src, dst, r9)

/-- `Receiving` alternative; `$` closes the whole pattern. -/
def dataxAltA (cs : List Char) : Option (List Char × List Char × List Char) := do
  let r1 ← litStr "Receiving".data cs
  let r2 ← ws1 r1
  let r3 ← litStr "block".data r2
  let r4 ← ws1 r3
  let r5 ← litStr "blk_".data r4
  let (bs, r6) ← takeRun1 blkChar r5
  let r7 ← ws1 r6
  let (src, dst, r8) ← srcDestPart r7
  if r8 = [] then pure ('b' :: 'l' :: 'k' :: '_' :: bs, src, dst) else none

/-- Greedy optional `(?:.*?size\s+(?P<size_received>\d+))?$`: the size branch
(shortest-first scan) is tried before the empty branch. -/
def sizeScan : Nat → List Char → Option (List Char)
  | 0, _ => none
  | fuel + 1, cs =>
    match (do
      let r1 ← litStr "size".data cs
      let r2 ← ws1 r1
      let (ds, r3) ← takeRun1 pyDigit r2
      if r3 = [] then some ds else none : Option (List Char)) with
    | some ds => some ds
    | none =>
      match cs with
      | [] => none
      | c :: rest => if c = '\n' then none else sizeScan fuel rest

/-- Resolve the optional size tail of the `received` alternative. -/
def recvSizeOpt (cs : List Char) : Option (Option (List Char)) :=
  match sizeScan (cs.length + 1) cs with
  | some ds => some (some ds)
  | none => if cs = [] then some none else none

/-- Probe `src:...dest:...` plus the optional size tail at one position of
the `received` alternative's first `.*?`. -/
def recvTailProbe (cs : List Char) : Option (List Char × List Char × Option (List Char)) := do
  let (src, dst, r9) ← srcDestPart cs
  let size ← recvSizeOpt r9
  pure (src, dst, size)

/-- Shortest-first scan of `.*?src:...` for the `received` alternative. -/
def recvScan : Nat → List Char → Option (List Char × List Char × Option (List Char))
  | 0, _ => none
  | fuel + 1, cs =>
    match recvTailProbe cs with
    | some r => some r
    | none =>
      match cs with
      | [] => none
      | c :: rest => if c = '\n' then none else recvScan fuel rest

/-- `Received` alternative. -/
def dataxAltB (cs : List Char) :
    Option (List Char × List Char × List Char × Option (List Char)) := do
  let r1 ← litStr "Received".data cs
  let r2 ← ws1 r1
  let r3 ← litStr "block".data r2
  let r4 ← ws1 r3
  let r5 ← litStr "blk_".data r4
  let (bs, r6) ← takeRun1 blkChar r5
  let (src, dst, size) ← recvScan (r6.length + 1) r6
  pure ('b' :: 'l' :: 'k' :: '_' :: bs, src, dst, size)

/-- `Served` alternative, head
`(?P<src_served>[0-9.]+):\d+\s+Served\s+block\s+blk_[0-9\-]+`. -/
def servedHead (cs : List Char) : Option (List Char × List Char × List Char) := do
  let (src, r1) ← ipPort cs
  let r2 ← ws1 r1
  let r3 ← litStr "Served".data r2
  let r4 ← ws1 r3
  let r5 ← litStr "block".data r4
  let r6 ← ws1 r5
  let r7 ← litStr "blk_".data r6
  let (bs, r8) ← takeRun1 blkChar r7
  pure (src, bs, r8)

/-- `Served` alternative, tail `\s+to\s+/(?P<dst_served>[0-9.]+)$`. -/
def servedTail (r8 : List Char) : Option (List Char) := do
  let r9 ← ws1 r8
  let r10 ← litStr "to".data r9
  let r11 ← ws1 r10
  let r12 ← litChar '/' r11
  let (dst, r13) ← takeRun1 ipChar r12
  if r13 = [] then pure dst else none

/-- `Served` alternative assembled. -/
def dataxAltC (cs : List Char) : Option (List Char × List Char × List Char) := do
  let (src, bs, r8) ← servedHead cs
  let dst ← servedTail r8
  pure (src, 'b' :: 'l' :: 'k' :: '_' :: bs, dst)

/-- The full `DATAX_REGEX` matcher: the three alternatives in pattern
order. -/
def dataxMatch (line : String) : Option DataxGroups := do
  let (date, time, tid, r) ← dataxHead line.data
  match dataxAltA r with
  | some (blk, src, dst) =>
    pure { date := ⟨date⟩, time := ⟨time⟩, tid := ⟨tid⟩,
           op_receiving := some "Receiving", blk_receiving := some ⟨blk⟩,
           src_receiving := some ⟨src⟩, dst_receiving := some ⟨dst⟩ }
  | none =>
    match dataxAltB r with
    | some (blk, src, dst, size) =>
      pure { date := ⟨date⟩, time := ⟨time⟩, tid := ⟨tid⟩,
             op_received := some "Received", blk_received := some ⟨blk⟩,
             src_received := some ⟨src⟩, dst_received := some ⟨dst⟩,
             size_received := size.map fun l => ⟨l⟩ }
    | none =>
      match dataxAltC r with
      | some (src, blk, dst) =>
        pure { date := ⟨date⟩, time := ⟨time⟩, tid := ⟨tid⟩,
               op_served := some "Served", src_served := some ⟨src⟩,
               blk_served := some ⟨blk⟩, dst_served := some ⟨dst⟩ }
      | none => none

/-- `str.replace("blk_", "")`: delete every occurrence of `blk_`. -/
def removeBlkAux : Nat → List Char → List Char
  | 0, l => l
  | fuel + 1, l =>
    match l with
    | 'b' :: 'l' :: 'k' :: '_' :: rest => removeBlkAux fuel rest
    | c :: rest => c :: removeBlkAux fuel rest
    | [] => []

/-- `fields[...].replace("blk_", "")` on a string. -/
def strReplaceBlk (s : String) : String :=
  ⟨removeBlkAux s.data.length s.data⟩

/-- `None` serialized by `csv.DictWriter` becomes an empty cell, like an
empty string. -/
def optStr (o : Option String) : String :=
  o.getD ""

/-- `add_receiving`: one `receiving` row, never a size. -/
def add_receiving (e : Nat → Nat → Nat) (k : Nat) (names : List String)
    (g : DataxGroups) (ts : PyDateTime) : Except PyErr (EntryRow × List String) :=
  let names1 := pyAdd names "receiving"
  match g.blk_receiving with
  | none => .error (.attributeError "NoneType object has no attribute")
  | some blk =>
    match intField (strReplaceBlk blk) with
    | .error err => .error err
    | .ok b =>
      .ok (write_entry (e k) .HDFS_DATAXCEIVER (deterministic_action_type_id "receiving")
        ts (optStr g.src_receiving) (optStr g.dst_receiving) (some b) none []
        load_log_type_ids, names1)

/-- `add_received`: one `received` row with optional size. -/
def add_received (e : Nat → Nat → Nat) (k : Nat) (names : List String)
    (g : DataxGroups) (ts : PyDateTime) : Except PyErr (EntryRow × List String) :=
  let names1 := pyAdd names "received"
  match (if pyTruthy g.size_received then (intField (g.size_received.getD "")).map some
         else .ok none : Except PyErr (Option Int)) with
  | .error err => .error err
  | .ok size =>
    match g.blk_received with
    | none => .error (.attributeError "NoneType object has no attribute")
    | some blk =>
      match intField (strReplaceBlk blk) with
      | .error err => .error err
      | .ok b =>
        .ok (write_entry (e k) .HDFS_DATAXCEIVER (deterministic_action_type_id "received")
          ts (optStr g.src_received) (optStr g.dst_received) (some b) size []
          load_log_type_ids, names1)

/-- `add_served`: one `served` row, never a size. -/
def add_served (e : Nat → Nat → Nat) (k : Nat) (names : List String)
    (g : DataxGroups) (ts : PyDateTime) : Except PyErr (EntryRow × List String) :=
  let names1 := pyAdd names "served"
  match g.blk_served with
  | none => .error (.attributeError "NoneType object has no attribute")
  | some blk =>
    match intField (strReplaceBlk blk) with
    | .error err => .error err
    | .ok b =>
      .ok (write_entry (e k) .HDFS_DATAXCEIVER (deterministic_action_type_id "served")
        ts (optStr g.src_served) (optStr g.dst_served) (some b) none []
        load_log_type_ids, names1)

/-- The DataXceiver worker's per-file loop: the timestamp is converted before
the per-operation dispatch. -/
def parse_dataxceiver_worker (e : Nat → Nat → Nat) (k : Nat) (names : List String) :
    List String → Except PyErr (List EntryRow × List String)
  | [] => .ok ([], names)
  | raw :: rest =>
    match dataxMatch (rstripNewlines raw) with
    | none => parse_dataxceiver_worker e k names rest
    | some g =>
      match tsHdfsField g.date g.time with
      | .error err => .error err
      | .ok ts =>
        let step : Except PyErr (Option (EntryRow × List String)) :=
          if pyTruthy g.op_receiving then (add_receiving e k names g ts).map some
          else if pyTruthy g.op_received then (add_received e k names g ts).map some
          else if pyTruthy g.op_served then (add_served e k names g ts).map some
          else .ok none
        match step with
        | .error err => .error err
        | .ok none => parse_dataxceiver_worker e k names rest
        | .ok (some (row, names1)) =>
          match parse_dataxceiver_worker e (k + 1) names1 rest with
          | .error err => .error err
          | .ok (rs, ns) => .ok (row :: rs, ns)

/-! ### Merge (`src/ingest/merge.py`) -/

/-- A row of an `action_types` CSV fragment (columns `id`, `name`). -/
structure ActionRow where
  id : String
  name : String
deriving DecidableEq, Repr

/-- Code-point comparison of strings, as Python compares `str` values. -/
def strLtB : List Char → List Char → Bool
  | [], [] => false
  | [], _ :: _ => true
  | _ :: _, [] => false
  | a :: as, b :: bs => if a = b then strLtB as bs else decide (a < b)

/-- Python tuple comparison on `(name, id)` pairs, as `sorted` uses on
`all_types.items()`. -/
def tupleLtB (a b : ActionRow) : Bool :=
  strLtB a.name.data b.name.data ||
    (a.name == b.name && strLtB a.id.data b.id.data)

/-- Insert into a sorted list (ascending, stable). -/
def insertBy (lt : α → α → Bool) (a : α) : List α → List α
  | [] => [a]
  | b :: l => if lt b a then b :: insertBy lt a l else a :: b :: l

/-- Insertion sort: the extensional behavior of Python `sorted`. -/
def sortBy (lt : α → α → Bool) (l : List α) : List α :=
  l.foldr (insertBy lt) []

/-- Dict lookup `all_types[name]` on the insertion-ordered association
list. -/
def lookupName : List ActionRow → String → Option String
  | [], _ => none
  | r :: rest, n => if r.name = n then some r.id else lookupName rest n

/-- The row loop of `merge_action_types`: first occurrence of a name is
recorded; a later occurrence with a different id raises `ValueError`
("UUID mismatch"). -/
def processRows : List ActionRow → List ActionRow → Except String (List ActionRow)
  | [], d => .ok d
  | r :: rest, d =>
    match lookupName d r.name with
    | none => processRows rest (d ++ [r])
    | some u =>
      if u = r.id then processRows rest d
      else .error ("UUID mismatch for action " ++ r.name)

/-- `merge_action_types` (`src/ingest/merge.py`): fold all fragment rows
through the dict, then write the entries sorted by name. -/
def merge_action_types (frags : List (List ActionRow)) : Except String (List ActionRow) :=
  match processRows frags.flatten [] with
  | .error e => .error e
  | .ok d => .ok (sortBy tupleLtB d)

/-- `merge_csv_files` (`src/ingest/merge.py`): append every fragment's rows
in path order. -/
def merge_csv_files (frags : List (List EntryRow)) : List EntryRow :=
  frags.foldl (fun acc f => acc ++ f) []

/-- `write_action_types` (each worker): the observed-name set sorted, each
with its deterministic id. -/
def write_action_types (names : List String) : List ActionRow :=
  (sortBy (fun a b : String => strLtB a.data b.data) names).map fun n =>
    { id := deterministic_action_type_id n, name := n }

/-! ### Execution contexts

`deterministic_action_type_id` reads no ambient state: no I/O, no module
globals besides the constant namespace, no randomness.  To state the
cross-process/cross-run determinism law we parameterize an evaluation by the
execution context (worker process, run, call counter); the context parameter
is unused precisely because the source touches none of it. -/

/-- An execution context: which worker process, which pipeline run, which
call within the run. -/
structure ExecContext where
  process : Nat
  run : Nat
  call : Nat
deriving DecidableEq, Repr

/-- Evaluating `deterministic_action_type_id(action)` in a given execution
context. -/
def action_type_id_in (ctx : ExecContext) (action : String) : String :=
  let _ := ctx
  deterministic_action_type_id action

example : merge_action_types [[⟨"u1", "GET"⟩], [⟨"u1", "GET"⟩, ⟨"u2", "POST"⟩]] =
    .ok [⟨"u1", "GET"⟩, ⟨"u2", "POST"⟩] := by decide
example : merge_action_types [[⟨"u1", "GET"⟩], [⟨"u3", "GET"⟩]] =
    .error "UUID mismatch for action GET" := by decide

/-! ### Predicates and sample inputs used by the verification -/

/-- Two rows of an action catalog conflict when they share a name but not an
id. -/
def NoConflict (l : List ActionRow) : Prop :=
  ∀ r₁ ∈ l, ∀ r₂ ∈ l, r₁.name = r₂.name → r₁.id = r₂.id

/-- A name carried by two different worker fragments with different
identifier values. -/
def CrossConflict (frags : List (List ActionRow)) : Prop :=
  ∃ i j, ∃ hi : i < frags.length, ∃ hj : j < frags.length, i ≠ j ∧
    ∃ r₁ ∈ frags[i], ∃ r₂ ∈ frags[j], r₁.name = r₂.name ∧ r₁.id ≠ r₂.id

/-- The spec's end-to-end access example line. -/
def accessExampleLine : String :=
  "10.0.0.1 - - [10/Oct/2020:13:55:36 +0000] \"GET /index.html HTTP/1.0\" 200 1043 \"-\" \"curl/7.64\""

/-- An access line that matches the pattern but whose size field is neither
digits nor `-`. -/
def accessBadSizeLine : String :=
  "10.0.0.1 - - [10/Oct/2020:13:55:36 +0000] \"GET /index.html HTTP/1.0\" 200 abc \"-\" \"curl/7.64\""

/-- An access line with size `-`. -/
def accessDashSizeLine : String :=
  "10.0.0.1 - - [10/Oct/2020:13:55:36 +0000] \"GET /index.html HTTP/1.0\" 200 - \"-\" \"curl/7.64\""

/-- An access line whose bracketed timestamp matches `[^]]+` but does not
parse as an Apache timestamp. -/
def accessBadTsLine : String :=
  "10.0.0.1 - - [notadate] \"GET /index.html HTTP/1.0\" 200 1043 \"-\" \"curl/7.64\""

/-- A line that matches no access pattern. -/
def accessNoMatchLine : String :=
  "081109 203518 143 INFO dfs.DataNode$DataXceiver: Receiving block"

/-- A replicate line whose six-digit date/time fields match `\d{6}` but do
not convert (`strptime` rejects them). -/
def replBadTsLine : String :=
  "999999 999999 35 INFO dfs.FSNamesystem: BLOCK* ask 10.0.0.5:50010 to replicate blk_100 to datanode(s) 10.0.0.6:50010 10.0.0.7:50010"

/-- The spec's replicate example line (with a realistic timestamp). -/
def replExampleLine : String :=
  "081109 203615 148 INFO dfs.FSNamesystem: BLOCK* ask 10.0.0.5:50010 to replicate blk_100 to datanode(s) 10.0.0.6:50010 10.0.0.7:50010"

/-- The replicate example with one malformed destination token between two
well-formed ones. -/
def replBadTokenLine : String :=
  "081109 203615 148 INFO dfs.FSNamesystem: BLOCK* ask 10.0.0.5:50010 to replicate blk_100 to datanode(s) 10.0.0.6:50010 foo 10.0.0.7:50010"

/-- The groups of `replBadTsLine`. -/
def replBadTsGroups : ReplGroups :=
  { date := "999999", time := "999999", tid := "35", src_ip := "10.0.0.5",
    block := "100", dest_list := "10.0.0.6:50010 10.0.0.7:50010" }

/-- A namesystem update groupdict as `NAMESYS_UPDATE_REGEX` would produce. -/
def updExampleGroups : UpdGroups :=
  { date := "081109", time := "203518", tid := "143", ip := "10.251.73.220",
    block := "-243", size := some "67108864" }

/-- A DataXceiver `Receiving` line. -/
def dataxReceivingLine : String :=
  "081109 203518 143 INFO dfs.DataNode$DataXceiver: Receiving block blk_-16 src: /10.250.19.102:54106 dest: /10.250.19.102:50010"

/-- A short replicate line with a single destination. -/
def replOneDestLine : String :=
  "081109 203615 148 INFO dfs.FSNamesystem: BLOCK* ask 10.0.0.5:50010 to replicate blk_100 to datanode(s) 10.0.0.6:50010"

/-! ### Lemmas: character classes and `pyInt` -/

theorem not_digit_of_space {c : Char} (h : pySpace c = true) : pyDigit c = false := by
  simp only [pySpace, Bool.or_eq_true, decide_eq_true_eq] at h
  rcases h with ((((h | h) | h) | h) | h) | h <;> subst h <;> decide

theorem not_space_of_digit {c : Char} (h : pyDigit c = true) : pySpace c = false := by
  cases hs : pySpace c with
  | false => rfl
  | true => rw [not_digit_of_space hs] at h; cases h

theorem not_space_of_ipChar {c : Char} (h : ipChar c = true) : pySpace c = false := by
  simp only [ipChar, Bool.or_eq_true, decide_eq_true_eq] at h
  rcases h with h | h
  · exact not_space_of_digit h
  · subst h; decide

theorem dropWhile_eq_self_of {p : Char → Bool} :
    ∀ l : List Char, (∀ c ∈ l, p c = false) → l.dropWhile p = l := by
  intro l h
  cases l with
  | nil => rfl
  | cons a l => simp [List.dropWhile, h a (by simp)]

theorem pyDigitsAux_digits :
    ∀ (l : List Char), (∀ c ∈ l, pyDigit c = true) → ∀ acc,
      pyDigitsAux acc l = some (l.foldl (fun a c => a * 10 + digitVal c) acc) := by
  intro l
  induction l with
  | nil => intro _ acc; rfl
  | cons a l ih =>
    intro h acc
    have ha : pyDigit a = true := h a (by simp)
    have hne : a ≠ '_' := by intro e; rw [e] at ha; cases ha
    rw [pyDigitsAux.eq_def]
    simp [hne, ha, ih (fun c hc => h c (by simp [hc]))]

theorem pyDigits_digits (l : List Char) (hne : l ≠ []) (h : ∀ c ∈ l, pyDigit c = true) :
    pyDigits l = some (digitsVal l) := by
  cases l with
  | nil => exact absurd rfl hne
  | cons a l =>
    have ha : pyDigit a = true := h a (by simp)
    simp [pyDigits, ha, pyDigitsAux_digits l (fun c hc => h c (by simp [hc])),
      digitsVal]

theorem pyInt_digits (l : List Char) (hne : l ≠ []) (h : ∀ c ∈ l, pyDigit c = true) :
    pyInt ⟨l⟩ = some ((digitsVal l : Nat) : Int) := by
  have hds : ∀ c ∈ l, pySpace c = false := fun c hc => not_space_of_digit (h c hc)
  have h1 : l.dropWhile pySpace = l := dropWhile_eq_self_of l hds
  have h2 : l.reverse.dropWhile pySpace = l.reverse :=
    dropWhile_eq_self_of l.reverse (fun c hc => hds c (List.mem_reverse.mp hc))
  cases l with
  | nil => exact absurd rfl hne
  | cons a l =>
    have ha : pyDigit a = true := h a (by simp)
    have hna : a ≠ '-' := by intro e; rw [e] at ha; cases ha
    have hpa : a ≠ '+' := by intro e; rw [e] at ha; cases ha
    rw [pyInt]
    simp only [h1, h2, List.reverse_reverse]
    simp [hna, hpa, pyDigits_digits (a :: l) (by simp) h]

theorem pyInt_neg_digits (l : List Char) (hne : l ≠ []) (h : ∀ c ∈ l, pyDigit c = true) :
    pyInt ⟨'-' :: l⟩ = some (-(digitsVal l : Int)) := by
  have hds : ∀ c ∈ ('-' :: l), pySpace c = false := by
    intro c hc
    rcases List.mem_cons.mp hc with rfl | hc
    · decide
    · exact not_space_of_digit (h c hc)
  have h1 := dropWhile_eq_self_of _ hds
  have h2 := dropWhile_eq_self_of (('-' :: l).reverse)
    (fun c hc => hds c (List.mem_reverse.mp hc))
  rw [pyInt]
  simp only [h1, h2, List.reverse_reverse]
  simp [pyDigits_digits l hne h]

/-! ### Lemmas: whitespace splitting of the destination list -/

theorem wordsAux_append_nonspace :
    ∀ (a : List Char), (∀ c ∈ a, pySpace c = false) → ∀ cur t,
      wordsAux cur (a ++ t) = wordsAux (a.reverse ++ cur) t := by
  intro a
  induction a with
  | nil => intro _ cur t; simp
  | cons c a ih =>
    intro h cur t
    have hc : pySpace c = false := h c (by simp)
    rw [List.cons_append, wordsAux.eq_def]
    simp only [hc, Bool.false_eq_true, if_false]
    rw [ih (fun x hx => h x (by simp [hx])) (c :: cur) t]
    simp

theorem wordsAux_space_head {s : Char} (hs : pySpace s = true) (cur : List Char)
    (r : List Char) (hcur : cur ≠ []) :
    wordsAux cur (s :: r) = cur.reverse :: wordsAux [] r := by
  rw [wordsAux.eq_def]
  simp [hs, hcur]

theorem wordsAux_space_append :
    ∀ (sp : List Char), (∀ c ∈ sp, pySpace c = true) → ∀ t,
      wordsAux [] (sp ++ t) = wordsAux [] t := by
  intro sp
  induction sp with
  | nil => intro _ t; rfl
  | cons s sp ih =>
    intro h t
    have hs : pySpace s = true := h s (by simp)
    rw [List.cons_append, wordsAux.eq_def]
    simp only [hs, if_true, reduceIte]
    exact ih (fun c hc => h c (by simp [hc])) t

theorem wordsAux_nil_colon :
    ∀ cur, (cur = [] ∨ ':' ∈ cur) → ∀ w ∈ wordsAux cur [], ':' ∈ w := by
  intro cur hc w hw
  rcases hc with rfl | hcol
  · simp [wordsAux] at hw
  · rw [wordsAux.eq_def] at hw
    have : cur ≠ [] := by intro e; rw [e] at hcol; cases hcol
    simp [this] at hw
    subst hw
    exact List.mem_reverse.mpr hcol

theorem words_chunk_colon (a sp rest : List Char)
    (ha : ∀ c ∈ a, pySpace c = false) (hcol : ':' ∈ a)
    (hsp : ∀ c ∈ sp, pySpace c = true)
    (hrest : ∀ cur, (cur = [] ∨ ':' ∈ cur) → ∀ w ∈ wordsAux cur rest, ':' ∈ w) :
    ∀ cur, (cur = [] ∨ ':' ∈ cur) → ∀ w ∈ wordsAux cur (a ++ (sp ++ rest)), ':' ∈ w := by
  intro cur _ w hw
  rw [wordsAux_append_nonspace a ha cur (sp ++ rest)] at hw
  have hcur2 : ':' ∈ a.reverse ++ cur :=
    List.mem_append.mpr (Or.inl (List.mem_reverse.mpr hcol))
  cases sp with
  | nil =>
    rw [List.nil_append] at hw
    exact hrest (a.reverse ++ cur) (Or.inr hcur2) w hw
  | cons s sp' =>
    have hs : pySpace s = true := hsp s (by simp)
    have hcur2ne : a.reverse ++ cur ≠ [] := by
      intro e; rw [e] at hcur2; cases hcur2
    rw [List.cons_append, wordsAux_space_head hs _ _ hcur2ne,
      wordsAux_space_append sp' (fun c hc => hsp c (by simp [hc])) rest] at hw
    rcases List.mem_cons.mp hw with rfl | hw
    · exact List.mem_reverse.mpr hcur2
    · exact hrest [] (Or.inl rfl) w hw

theorem takeRun1_inv {p : Char → Bool} {cs t r : List Char}
    (h : takeRun1 p cs = some (t, r)) :
    r = cs.dropWhile p ∧ t ≠ [] ∧ (∀ c ∈ t, p c = true) := by
  unfold takeRun1 at h
  cases ht : cs.takeWhile p with
  | nil => rw [ht] at h; cases h
  | cons x xs =>
    rw [ht] at h
    injection h with h'
    injection h' with h1 h2
    subst h1; subst h2
    exact ⟨rfl, by simp, fun c hc => List.mem_takeWhile_imp (ht ▸ hc)⟩

theorem litChar_inv {c : Char} {l r : List Char} (h : litChar c l = some r) :
    l = c :: r := by
  cases l with
  | nil => cases h
  | cons x rest =>
    have h' : (if x = c then some rest else none) = some r := h
    by_cases hx : x = c
    · rw [if_pos hx] at h'; injection h' with h''; rw [hx, h'']
    · rw [if_neg hx] at h'; cases h' 

theorem destIter_parts {cs c r : List Char} (h : destIter cs = some (c, r)) :
    ∃ a sp, c = a ++ sp ∧ (∀ x ∈ a, pySpace x = false) ∧ ':' ∈ a ∧
      (∀ x ∈ sp, pySpace x = true) := by
  simp only [destIter, Option.bind_eq_bind, Option.bind_eq_some] at h
  obtain ⟨⟨ip, r1⟩, h1, h⟩ := h
  obtain ⟨r2, h2, h⟩ := h
  obtain ⟨⟨ds, r3⟩, h3, h⟩ := h
  simp only [Option.some.injEq, Prod.mk.injEq] at h
  obtain ⟨rfl, -⟩ := h
  obtain ⟨-, hipne, hip⟩ := takeRun1_inv h1
  obtain ⟨-, hdsne, hds⟩ := takeRun1_inv h3
  refine ⟨ip ++ ':' :: ds, r3.takeWhile pySpace, ?_, ?_, ?_, ?_⟩
  · simp
  · intro x hx
    rcases List.mem_append.mp hx with hx | hx
    · exact not_space_of_ipChar (hip x hx)
    · rcases List.mem_cons.mp hx with rfl | hx
      · decide
      · exact not_space_of_digit (hds x hx)
  · simp
  · intro x hx; exact List.mem_takeWhile_imp hx

theorem destLoop_words_colon :
    ∀ (fuel : Nat) (cs c r : List Char), destLoop fuel cs = some (c, r) →
      ∀ cur, (cur = [] ∨ ':' ∈ cur) → ∀ w ∈ wordsAux cur c, ':' ∈ w := by
  intro fuel
  induction fuel with
  | zero => intro cs c r h; cases h
  | succ fuel ih =>
    intro cs c r h
    simp only [destLoop] at h
    split at h
    · cases h
    · rename_i c1 r1 hit
      split at h
      · rename_i c2 r2 hloop
        simp only [Option.some.injEq, Prod.mk.injEq] at h
        obtain ⟨rfl, -⟩ := h
        obtain ⟨a, sp, rfl, ha, hcol, hsp⟩ := destIter_parts hit
        intro cur hc w hw
        exact words_chunk_colon a sp c2 ha hcol hsp (ih r1 c2 r2 hloop) cur hc w
          (by simpa [List.append_assoc] using hw)
      · rename_i hloop
        simp only [Option.some.injEq, Prod.mk.injEq] at h
        obtain ⟨rfl, -⟩ := h
        obtain ⟨a, sp, rfl, ha, hcol, hsp⟩ := destIter_parts hit
        intro cur hc w hw
        exact words_chunk_colon a sp [] ha hcol hsp wordsAux_nil_colon cur hc w
          (by simpa using hw)

/-! ### Lemmas: matcher inversion for the replicate pattern -/

theorem signedDigits_pyInt {cs bl r : List Char} (h : signedDigits cs = some (bl, r)) :
    ∃ b : Int, pyInt ⟨bl⟩ = some b := by
  cases cs with
  | nil => cases h
  | cons c cr =>
    have h' : (if c = '-' then (takeRun1 pyDigit cr).map fun (ds, r2) => ('-' :: ds, r2)
        else takeRun1 pyDigit (c :: cr)) = some (bl, r) := h
    by_cases hc : c = '-'
    · rw [if_pos hc] at h'
      obtain ⟨⟨ds, r2⟩, hds, heq⟩ := Option.map_eq_some'.mp h'
      obtain ⟨-, hne, hdig⟩ := takeRun1_inv hds
      simp only [Prod.mk.injEq] at heq
      obtain ⟨rfl, -⟩ := heq
      exact ⟨-(digitsVal ds : Int), pyInt_neg_digits ds hne hdig⟩
    · rw [if_neg hc] at h'
      obtain ⟨-, hne, hdig⟩ := takeRun1_inv h'
      exact ⟨(digitsVal bl : Int), pyInt_digits bl hne hdig⟩

theorem replTail_destLoop {cs dl : List Char} (h : replTail cs = some dl) :
    ∃ fuel r5 r6, destLoop fuel r5 = some (dl, r6) := by
  simp only [replTail, Option.bind_eq_bind, Option.bind_eq_some] at h
  obtain ⟨r1, h1, h⟩ := h
  obtain ⟨r2, h2, h⟩ := h
  obtain ⟨r3, h3, h⟩ := h
  obtain ⟨r4, h4, h⟩ := h
  obtain ⟨r5, h5, h⟩ := h
  obtain ⟨⟨dl', r6⟩, h6, h⟩ := h
  by_cases hr : r6 = []
  · rw [if_pos hr] at h
    simp only [Option.pure_def, Option.some.injEq] at h
    subst h
    exact ⟨r5.length + 1, r5, r6, h6⟩
  · rw [if_neg hr] at h
    cases h

theorem replMid_block {cs src bl r10 : List Char}
    (h : replMid cs = some (src, bl, r10)) :
    ∃ r9, signedDigits r9 = some (bl, r10) := by
  simp only [replMid, Option.bind_eq_bind, Option.bind_eq_some] at h
  obtain ⟨r1, h1, h⟩ := h
  obtain ⟨r2, h2, h⟩ := h
  obtain ⟨⟨s, r3⟩, h3, h⟩ := h
  obtain ⟨r4, h4, h⟩ := h
  obtain ⟨r5, h5, h⟩ := h
  obtain ⟨r6, h6, h⟩ := h
  obtain ⟨r7, h7, h⟩ := h
  obtain ⟨r8, h8, h⟩ := h
  obtain ⟨r9, h9, h⟩ := h
  obtain ⟨⟨bl', r10'⟩, h10, h⟩ := h
  simp only [Option.pure_def, Option.some.injEq, Prod.mk.injEq] at h
  obtain ⟨-, rfl, rfl⟩ := h
  exact ⟨r9, h10⟩

theorem replicateMatch_inv {line : String} {g : ReplGroups}
    (h : replicateMatch line = some g) :
    (∀ w ∈ wordsAux [] g.dest_list.data, ':' ∈ w) ∧
    (∃ b : Int, pyInt g.block = some b) := by
  simp only [replicateMatch, Option.bind_eq_bind, Option.bind_eq_some] at h
  obtain ⟨⟨date, time, tid, r⟩, h1, h⟩ := h
  obtain ⟨⟨src, blockCs, r10⟩, h2, h⟩ := h
  obtain ⟨dl, h3, h⟩ := h
  simp only [Option.pure_def, Option.some.injEq] at h
  subst h
  constructor
  · obtain ⟨fuel, r5, r6, h6⟩ := replTail_destLoop h3
    exact destLoop_words_colon fuel r5 dl r6 h6 [] (Or.inl rfl)
  · obtain ⟨r9, h9⟩ := replMid_block h2
    exact signedDigits_pyInt h9

theorem pySplit_colon {s : String} (h : ∀ w ∈ wordsAux [] s.data, ':' ∈ w) :
    ∀ t ∈ pySplit s, containsColon t = true := by
  intro t ht
  simp only [pySplit, List.mem_map] at ht
  obtain ⟨w, hw, rfl⟩ := ht
  exact List.elem_iff.mpr (h w hw)

theorem add_replicate_rows_eq (e : Nat → Nat → Nat) (k : Nat) (ts : PyDateTime)
    (src : String) (b : Int) :
    ∀ (toks : List String), (∀ t ∈ toks, containsColon t = true) → ∀ i,
      add_replicate_rows e k ts src b toks i =
        toks.enum.map (fun p => write_entry (e (k + i + p.1)) .HDFS_NAMESYSTEM
          (deterministic_action_type_id "replicate") ts src (beforeColon p.2)
          (some b) none [] load_log_type_ids) := by
  intro toks
  induction toks with
  | nil => intro _ i; rfl
  | cons t toks ih =>
    intro h i
    have ht : containsColon t = true := h t (by simp)
    rw [add_replicate_rows.eq_def]
    simp only [ht, if_true, reduceIte]
    rw [ih (fun x hx => h x (by simp [hx])) (i + 1)]
    rw [List.enum_cons']
    simp only [List.map_cons, List.map_map]
    congr 1
    apply List.map_congr_left
    intro ⟨j, t'⟩ _
    have harith : k + i + (j + 1) = k + (i + 1) + j := by omega
    simp [Prod.map, harith]

/-! ### Lemmas: the action-type merge -/

theorem lookupName_some :
    ∀ (d : List ActionRow) (n u : String), lookupName d n = some u →
      ∃ r ∈ d, r.name = n ∧ r.id = u := by
  intro d
  induction d with
  | nil => intro n u h; cases h
  | cons r d ih =>
    intro n u h
    unfold lookupName at h
    by_cases hn : r.name = n
    · rw [if_pos hn] at h
      injection h with h'
      exact ⟨r, by simp, hn, h'⟩
    · rw [if_neg hn] at h
      obtain ⟨s, hs, h1, h2⟩ := ih n u h
      exact ⟨s, by simp [hs], h1, h2⟩

theorem lookupName_none :
    ∀ (d : List ActionRow) (n : String), lookupName d n = none →
      ∀ r ∈ d, r.name ≠ n := by
  intro d
  induction d with
  | nil => intro n _ r hr; cases hr
  | cons s d ih =>
    intro n h r hr
    unfold lookupName at h
    by_cases hn : s.name = n
    · rw [if_pos hn] at h; cases h
    · rw [if_neg hn] at h
      rcases List.mem_cons.mp hr with rfl | hr
      · exact hn
      · exact ih n h r hr

theorem noConflict_of_sub {l l' : List ActionRow} (hsub : ∀ r ∈ l', r ∈ l)
    (h : NoConflict l) : NoConflict l' :=
  fun r₁ h₁ r₂ h₂ => h r₁ (hsub _ h₁) r₂ (hsub _ h₂)

theorem names_distinct {f : List ActionRow} (hnd : (f.map (·.name)).Nodup)
    {a b : ActionRow} (ha : a ∈ f) (hb : b ∈ f) (hne : a ≠ b) :
    a.name ≠ b.name :=
  fun hn => hne (List.inj_on_of_nodup_map hnd ha hb hn)

theorem noConflict_of_nodupNames {d : List ActionRow}
    (hd : (d.map (·.name)).Nodup) : NoConflict d := by
  intro r₁ h₁ r₂ h₂ hn
  by_cases he : r₁ = r₂
  · rw [he]
  · exact absurd hn (names_distinct hd h₁ h₂ he)

theorem processRows_ok_iff :
    ∀ (rows d : List ActionRow), (d.map (·.name)).Nodup →
      ((∃ d', processRows rows d = .ok d') ↔ NoConflict (d ++ rows)) := by
  intro rows
  induction rows with
  | nil =>
    intro d hd
    simp only [processRows, List.append_nil]
    exact ⟨fun _ => noConflict_of_nodupNames hd, fun _ => ⟨d, rfl⟩⟩
  | cons r rows ih =>
    intro d hd
    simp only [processRows]
    cases hl : lookupName d r.name with
    | none =>
      simp only [hl]
      have hnotin : r.name ∉ d.map (·.name) := by
        intro hmem
        obtain ⟨s, hs, hsn⟩ := List.mem_map.mp hmem
        exact lookupName_none d r.name hl s hs hsn
      have hd' : ((d ++ [r]).map (·.name)).Nodup := by
        rw [List.map_append]
        refine List.Nodup.append hd (by simp) ?_
        intro x hx hmem
        simp only [List.map_cons, List.map_nil, List.mem_singleton] at hmem
        subst hmem
        exact hnotin hx
      rw [ih (d ++ [r]) hd', List.append_assoc, List.singleton_append]
    | some u =>
      simp only [hl]
      obtain ⟨s, hs, hsn, hsi⟩ := lookupName_some d r.name u hl
      by_cases hu : u = r.id
      · rw [if_pos hu, ih d hd]
        have hs' : s ∈ d ++ rows := List.mem_append.mpr (Or.inl hs)
        have hsr : s.id = r.id := hsi.trans hu
        constructor
        · intro h
          have key : ∀ x ∈ d ++ rows, x.name = r.name → x.id = r.id := by
            intro x hx hxn
            exact (h x hx s hs' (hxn.trans hsn.symm)).trans hsr
          have hmem : ∀ x, x ∈ d ++ r :: rows → x = r ∨ x ∈ d ++ rows := by
            intro x hx
            rcases List.mem_append.mp hx with hx | hx
            · exact Or.inr (List.mem_append.mpr (Or.inl hx))
            · rcases List.mem_cons.mp hx with rfl | hx
              · exact Or.inl rfl
              · exact Or.inr (List.mem_append.mpr (Or.inr hx))
          intro r₁ h₁ r₂ h₂ hn
          rcases hmem r₁ h₁ with rfl | h₁' <;> rcases hmem r₂ h₂ with rfl | h₂'
          · rfl
          · exact (key r₂ h₂' hn.symm).symm
          · exact key r₁ h₁' hn
          · exact h r₁ h₁' r₂ h₂' hn
        · intro h
          refine noConflict_of_sub ?_ h
          intro x hx
          rcases List.mem_append.mp hx with hx | hx
          · exact List.mem_append.mpr (Or.inl hx)
          · exact List.mem_append.mpr (Or.inr (List.mem_cons_of_mem _ hx))
      · rw [if_neg hu]
        constructor
        · intro ⟨d', hd'⟩; cases hd'
        · intro h
          have : s.id = r.id := h s (List.mem_append.mpr (Or.inl hs)) r
            (List.mem_append.mpr (Or.inr (by simp))) hsn
          exact absurd (hsi.symm.trans this) hu

theorem processRows_names :
    ∀ (rows d d' : List ActionRow), processRows rows d = .ok d' →
      (d.map (·.name)).Nodup →
      (d'.map (·.name)).Nodup ∧
        ∀ n, n ∈ d'.map (·.name) ↔ n ∈ d.map (·.name) ∨ n ∈ rows.map (·.name) := by
  intro rows
  induction rows with
  | nil =>
    intro d d' h hd
    simp only [processRows] at h
    injection h with h
    subst h
    exact ⟨hd, fun n => by simp⟩
  | cons r rows ih =>
    intro d d' h hd
    simp only [processRows] at h
    cases hl : lookupName d r.name with
    | none =>
      simp only [hl] at h
      have hnotin : r.name ∉ d.map (·.name) := by
        intro hmem
        obtain ⟨s, hs, hsn⟩ := List.mem_map.mp hmem
        exact lookupName_none d r.name hl s hs hsn
      have hd' : ((d ++ [r]).map (·.name)).Nodup := by
        rw [List.map_append]
        refine List.Nodup.append hd (by simp) ?_
        intro x hx hmem
        simp only [List.map_cons, List.map_nil, List.mem_singleton] at hmem
        subst hmem
        exact hnotin hx
      obtain ⟨h1, h2⟩ := ih (d ++ [r]) d' h hd'
      refine ⟨h1, fun n => ?_⟩
      rw [h2 n]
      simp only [List.map_append, List.mem_append, List.map_cons, List.mem_cons,
        List.map_nil, List.mem_singleton, List.not_mem_nil, or_false]
      tauto
    | some u =>
      simp only [hl] at h
      by_cases hu : u = r.id
      · rw [if_pos hu] at h
        obtain ⟨s, hs, hsn, -⟩ := lookupName_some d r.name u hl
        have hrn : r.name ∈ d.map (·.name) :=
          List.mem_map.mpr ⟨s, hs, hsn⟩
        obtain ⟨h1, h2⟩ := ih d d' h hd
        refine ⟨h1, fun n => ?_⟩
        rw [h2 n]
        simp only [List.map_cons, List.mem_cons]
        constructor
        · tauto
        · rintro (hn | rfl | hn)
          · exact Or.inl hn
          · exact Or.inl hrn
          · exact Or.inr hn
      · rw [if_neg hu] at h
        cases h

theorem except_not_ok {α β : Type} (p : Except α β) (h : ¬ ∃ b, p = .ok b) :
    ∃ a, p = .error a := by
  cases p with
  | error a => exact ⟨a, rfl⟩
  | ok b => exact absurd ⟨b, rfl⟩ h

theorem insertBy_perm {α : Type} (lt : α → α → Bool) (a : α) :
    ∀ l : List α, (insertBy lt a l).Perm (a :: l) := by
  intro l
  induction l with
  | nil => exact List.Perm.refl _
  | cons b l ih =>
    by_cases hb : lt b a
    · have he : insertBy lt a (b :: l) = b :: insertBy lt a l := by
        simp only [insertBy, hb, if_true]
      rw [he]
      exact (List.Perm.cons b ih).trans (List.Perm.swap a b l)
    · have he : insertBy lt a (b :: l) = a :: b :: l := by
        simp only [insertBy, hb, if_false, Bool.false_eq_true]
      rw [he]

theorem sortBy_perm {α : Type} (lt : α → α → Bool) :
    ∀ l : List α, (sortBy lt l).Perm l := by
  intro l
  induction l with
  | nil => exact List.Perm.refl _
  | cons a l ih =>
    exact (insertBy_perm lt a (sortBy lt l)).trans (List.Perm.cons a ih)

theorem noConflict_flatten_iff (frags : List (List ActionRow))
    (hf : ∀ f ∈ frags, (f.map (·.name)).Nodup) :
    (¬ NoConflict frags.flatten) ↔ CrossConflict frags := by
  constructor
  · intro h
    simp only [NoConflict, not_forall] at h
    obtain ⟨r₁, h₁, r₂, h₂, hn, hid⟩ := h
    obtain ⟨f₁, hf₁, hr₁⟩ := List.mem_flatten.mp h₁
    obtain ⟨f₂, hf₂, hr₂⟩ := List.mem_flatten.mp h₂
    obtain ⟨i, hi, rfl⟩ := List.mem_iff_getElem.mp hf₁
    obtain ⟨j, hj, rfl⟩ := List.mem_iff_getElem.mp hf₂
    have hij : i ≠ j := by
      intro e
      subst e
      have hne : r₁ ≠ r₂ := fun e => hid (e ▸ rfl)
      exact names_distinct (hf _ (List.getElem_mem hi)) hr₁ (by exact hr₂) hne hn
    exact ⟨i, j, hi, hj, hij, r₁, hr₁, r₂, hr₂, hn, hid⟩
  · rintro ⟨i, j, hi, hj, -, r₁, hr₁, r₂, hr₂, hn, hid⟩ h
    exact hid (h r₁ (List.mem_flatten.mpr ⟨_, List.getElem_mem hi, hr₁⟩)
      r₂ (List.mem_flatten.mpr ⟨_, List.getElem_mem hj, hr₂⟩) hn)

/-! ### Lemmas: the access worker loop -/

theorem tsApacheField_ok {s : String} {t : PyDateTime} :
    tsApacheField s = .ok t ↔ ts_apache s = some t := by
  unfold tsApacheField
  cases ts_apache s with
  | none => simp
  | some t' => simp

theorem tsHdfsField_ok {d t : String} {x : PyDateTime} :
    tsHdfsField d t = .ok x ↔ ts_hdfs_compact d t = some x := by
  unfold tsHdfsField
  cases ts_hdfs_compact d t with
  | none => simp
  | some t' => simp

theorem mem_pyAdd (l : List String) (a : String) : a ∈ pyAdd l a := by
  unfold pyAdd
  by_cases h : a ∈ l
  · rwa [if_pos h]
  · rw [if_neg h]; simp

theorem pyAdd_sub (l : List String) (a : String) : ∀ b ∈ l, b ∈ pyAdd l a := by
  intro b hb
  unfold pyAdd
  by_cases h : a ∈ l
  · rwa [if_pos h]
  · rw [if_neg h]; simp [hb]

theorem parse_access_skip (e : Nat → Nat → Nat) (k : Nat) (names : List String)
    (raw : String) (rest : List String)
    (hm : accessMatch (rstripNewlines raw) = none) :
    parse_access_worker e k names (raw :: rest) = parse_access_worker e k names rest := by
  simp only [parse_access_worker, hm]

theorem parse_access_ts_crash (e : Nat → Nat → Nat) (k : Nat) (names : List String)
    (raw : String) (rest : List String) (g : AccessGroups)
    (hm : accessMatch (rstripNewlines raw) = some g)
    (hts : ts_apache g.timestamp = none) :
    parse_access_worker e k names (raw :: rest) =
      .error (.valueError ("time data " ++ g.timestamp ++ " does not match format")) := by
  simp only [parse_access_worker, hm, tsApacheField, hts]

theorem parse_access_size_crash (e : Nat → Nat → Nat) (k : Nat) (names : List String)
    (raw : String) (rest : List String) (g : AccessGroups) (ts : PyDateTime)
    (hm : accessMatch (rstripNewlines raw) = some g)
    (hts : ts_apache g.timestamp = some ts)
    (h1 : g.size ≠ "") (h2 : g.size ≠ "-") (h3 : pyInt g.size = none) :
    parse_access_worker e k names (raw :: rest) =
      .error (.valueError ("invalid literal for int() with base 10: " ++ g.size)) := by
  simp only [parse_access_worker, hm, tsApacheField, hts, sizeFieldVal, intField,
    h1, h2, h3, false_or, if_false, Except.map, or_self]

theorem parse_access_cons_ok (e : Nat → Nat → Nat) (k : Nat) (names : List String)
    (raw : String) (rest : List String) (g : AccessGroups)
    (rows : List EntryRow) (dets : List DetailRow) (ns : List String)
    (hm : accessMatch (rstripNewlines raw) = some g)
    (h : parse_access_worker e k names (raw :: rest) = .ok (rows, dets, ns)) :
    ∃ ts size st rs ds,
      ts_apache g.timestamp = some ts ∧
      sizeFieldVal g.size = .ok size ∧
      intField g.status = .ok st ∧
      parse_access_worker e (k + 1) (pyAdd names g.method) rest = .ok (rs, ds, ns) ∧
      rows = mkAccessRow (e k) g ts size :: rs ∧
      dets = mkAccessDetail (mkAccessRow (e k) g ts size).id g st :: ds := by
  simp only [parse_access_worker, hm] at h
  split at h
  · cases h
  · rename_i ts hts
    split at h
    · cases h
    · rename_i size hsize
      split at h
      · cases h
      · rename_i st hst
        split at h
        · cases h
        · rename_i rs ds ns' hrec
          simp only [Except.ok.injEq, Prod.mk.injEq] at h
          obtain ⟨rfl, rfl, rfl⟩ := h
          exact ⟨ts, size, st, rs, ds, tsApacheField_ok.mp hts, hsize, hst, hrec,
            rfl, rfl⟩

theorem parse_access_actions :
    ∀ (lines : List String) (e : Nat → Nat → Nat) (k : Nat)
      (names : List String) (rows : List EntryRow) (dets : List DetailRow)
      (ns : List String),
      parse_access_worker e k names lines = .ok (rows, dets, ns) →
      (∀ a ∈ names, a ∈ ns) ∧
      ∀ r ∈ rows, ∃ a ∈ ns, r.action_type_id = deterministic_action_type_id a := by
  intro lines
  induction lines with
  | nil =>
    intro e k names rows dets ns h
    simp only [parse_access_worker, Except.ok.injEq, Prod.mk.injEq] at h
    obtain ⟨rfl, rfl, rfl⟩ := h
    exact ⟨fun a ha => ha, fun r hr => absurd hr (List.not_mem_nil r)⟩
  | cons raw rest ih =>
    intro e k names rows dets ns h
    cases hm : accessMatch (rstripNewlines raw) with
    | none =>
      rw [parse_access_skip e k names raw rest hm] at h
      exact ih e k names rows dets ns h
    | some g =>
      obtain ⟨ts, size, st, rs, ds, -, -, -, hrec, rfl, -⟩ :=
        parse_access_cons_ok e k names raw rest g rows dets ns hm h
      obtain ⟨hsub, htail⟩ := ih e (k + 1) (pyAdd names g.method) rs ds ns hrec
      constructor
      · exact fun a ha => hsub a (pyAdd_sub names g.method a ha)
      · intro r hr
        rcases List.mem_cons.mp hr with rfl | hr
        · exact ⟨g.method, hsub g.method (mem_pyAdd names g.method), rfl⟩
        · exact htail r hr

/-! ### Lemmas: the namesystem worker loop -/

theorem write_entry_action (rand : Nat → Nat) (lt : LogType) (a : String)
    (ts : PyDateTime) (si di : String) (b sz : Option Int)
    (d : List (String × String)) (ids : List (LogType × Nat)) :
    (write_entry rand lt a ts si di b sz d ids).action_type_id = a := rfl

theorem add_update_ok {e : Nat → Nat → Nat} {k : Nat} {names : List String}
    {g : UpdGroups} {row : EntryRow} {names1 : List String}
    (h : add_update e k names g = .ok (row, names1)) :
    row.action_type_id = deterministic_action_type_id "update" ∧
    names1 = pyAdd names "update" := by
  unfold add_update at h
  split at h
  · cases h
  · split at h
    · cases h
    · split at h
      · cases h
      · simp only [Except.ok.injEq, Prod.mk.injEq] at h
        obtain ⟨rfl, rfl⟩ := h
        exact ⟨rfl, rfl⟩

theorem add_replicate_rows_action (e : Nat → Nat → Nat) (k : Nat)
    (ts : PyDateTime) (src : String) (b : Int) :
    ∀ (toks : List String) (i : Nat), ∀ r ∈ add_replicate_rows e k ts src b toks i,
      r.action_type_id = deterministic_action_type_id "replicate" := by
  intro toks
  induction toks with
  | nil => intro i r hr; cases hr
  | cons t toks ih =>
    intro i r hr
    simp only [add_replicate_rows] at hr
    by_cases ht : containsColon t
    · rw [if_pos ht] at hr
      rcases List.mem_cons.mp hr with rfl | hr
      · rfl
      · exact ih (i + 1) r hr
    · rw [if_neg ht] at hr
      exact ih i r hr

theorem add_replicate_ok {e : Nat → Nat → Nat} {k : Nat} {names : List String}
    {g : ReplGroups} {rows : List EntryRow} {names1 : List String}
    (h : add_replicate e k names g = .ok (rows, names1)) :
    (∀ r ∈ rows, r.action_type_id = deterministic_action_type_id "replicate") ∧
    names1 = pyAdd names "replicate" := by
  unfold add_replicate at h
  split at h
  · cases h
  · rename_i ts hts
    split at h
    · cases h
    · rename_i b hb
      simp only [Except.ok.injEq, Prod.mk.injEq] at h
      obtain ⟨rfl, rfl⟩ := h
      exact ⟨fun r hr => add_replicate_rows_action e k ts g.src_ip b _ 0 r hr, rfl⟩

theorem parse_namesystem_actions :
    ∀ (lines : List String) (e : Nat → Nat → Nat) (k : Nat)
      (names : List String) (rows : List EntryRow) (ns : List String),
      parse_namesystem_worker e k names lines = .ok (rows, ns) →
      (∀ a ∈ names, a ∈ ns) ∧
      ∀ r ∈ rows, ∃ a ∈ ns, r.action_type_id = deterministic_action_type_id a := by
  intro lines
  induction lines with
  | nil =>
    intro e k names rows ns h
    simp only [parse_namesystem_worker, Except.ok.injEq, Prod.mk.injEq] at h
    obtain ⟨rfl, rfl⟩ := h
    exact ⟨fun a ha => ha, fun r hr => absurd hr (List.not_mem_nil r)⟩
  | cons raw rest ih =>
    intro e k names rows ns h
    simp only [parse_namesystem_worker] at h
    split at h
    · -- update branch
      split at h
      · cases h
      · rename_i row names1 hadd
        split at h
        · cases h
        · rename_i rs ns' hrec
          simp only [Except.ok.injEq, Prod.mk.injEq] at h
          obtain ⟨rfl, rfl⟩ := h
          obtain ⟨hact, rfl⟩ := add_update_ok hadd
          obtain ⟨hsub, htail⟩ := ih e (k + 1) (pyAdd names "update") rs ns' hrec
          refine ⟨fun a ha => hsub a (pyAdd_sub names "update" a ha), ?_⟩
          intro r hr
          rcases List.mem_cons.mp hr with rfl | hr
          · exact ⟨"update", hsub "update" (mem_pyAdd names "update"), hact⟩
          · exact htail r hr
    · -- not update: replicate or skip
      split at h
      · -- replicate branch
        split at h
        · cases h
        · rename_i rrows names1 hadd
          split at h
          · cases h
          · rename_i rs ns' hrec
            simp only [Except.ok.injEq, Prod.mk.injEq] at h
            obtain ⟨rfl, rfl⟩ := h
            obtain ⟨hact, rfl⟩ := add_replicate_ok hadd
            obtain ⟨hsub, htail⟩ := ih e (k + rrows.length)
              (pyAdd names "replicate") rs ns' hrec
            refine ⟨fun a ha => hsub a (pyAdd_sub names "replicate" a ha), ?_⟩
            intro r hr
            rcases List.mem_append.mp hr with hr | hr
            · exact ⟨"replicate", hsub "replicate" (mem_pyAdd names "replicate"),
                hact r hr⟩
            · exact htail r hr
      · -- skip
        exact ih e k names rows ns h

/-! ### Lemmas: the DataXceiver worker loop -/

theorem except_map_some_ok {α β : Type} {p : Except α β} {x : β} :
    p.map some = .ok (some x) ↔ p = .ok x := by
  cases p <;> simp [Except.map]

theorem add_receiving_ok {e : Nat → Nat → Nat} {k : Nat} {names : List String}
    {g : DataxGroups} {ts : PyDateTime} {row : EntryRow} {names1 : List String}
    (h : add_receiving e k names g ts = .ok (row, names1)) :
    row.action_type_id = deterministic_action_type_id "receiving" ∧
    names1 = pyAdd names "receiving" := by
  unfold add_receiving at h
  split at h
  · cases h
  · split at h
    · cases h
    · simp only [Except.ok.injEq, Prod.mk.injEq] at h
      obtain ⟨rfl, rfl⟩ := h
      exact ⟨rfl, rfl⟩

theorem add_received_ok {e : Nat → Nat → Nat} {k : Nat} {names : List String}
    {g : DataxGroups} {ts : PyDateTime} {row : EntryRow} {names1 : List String}
    (h : add_received e k names g ts = .ok (row, names1)) :
    row.action_type_id = deterministic_action_type_id "received" ∧
    names1 = pyAdd names "received" := by
  unfold add_received at h
  split at h
  · cases h
  · split at h
    · cases h
    · split at h
      · cases h
      · simp only [Except.ok.injEq, Prod.mk.injEq] at h
        obtain ⟨rfl, rfl⟩ := h
        exact ⟨rfl, rfl⟩

theorem add_served_ok {e : Nat → Nat → Nat} {k : Nat} {names : List String}
    {g : DataxGroups} {ts : PyDateTime} {row : EntryRow} {names1 : List String}
    (h : add_served e k names g ts = .ok (row, names1)) :
    row.action_type_id = deterministic_action_type_id "served" ∧
    names1 = pyAdd names "served" := by
  unfold add_served at h
  split at h
  · cases h
  · split at h
    · cases h
    · simp only [Except.ok.injEq, Prod.mk.injEq] at h
      obtain ⟨rfl, rfl⟩ := h
      exact ⟨rfl, rfl⟩

theorem parse_dataxceiver_actions :
    ∀ (lines : List String) (e : Nat → Nat → Nat) (k : Nat)
      (names : List String) (rows : List EntryRow) (ns : List String),
      parse_dataxceiver_worker e k names lines = .ok (rows, ns) →
      (∀ a ∈ names, a ∈ ns) ∧
      ∀ r ∈ rows, ∃ a ∈ ns, r.action_type_id = deterministic_action_type_id a := by
  intro lines
  induction lines with
  | nil =>
    intro e k names rows ns h
    simp only [parse_dataxceiver_worker, Except.ok.injEq, Prod.mk.injEq] at h
    obtain ⟨rfl, rfl⟩ := h
    exact ⟨fun a ha => ha, fun r hr => absurd hr (List.not_mem_nil r)⟩
  | cons raw rest ih =>
    intro e k names rows ns h
    simp only [parse_dataxceiver_worker] at h
    split at h
    · -- no match
      exact ih e k names rows ns h
    · -- matched
      rename_i g hm
      split at h
      · cases h
      · rename_i ts hts
        split at h
        · cases h
        · -- step returned ok none: line produced nothing
          rename_i hstep
          exact ih e k names rows ns h
        · rename_i row names1 hstep
          split at h
          · cases h
          · rename_i rs ns' hrec
            simp only [Except.ok.injEq, Prod.mk.injEq] at h
            obtain ⟨rfl, rfl⟩ := h
            have hrow : ∃ op, row.action_type_id = deterministic_action_type_id op ∧
                names1 = pyAdd names op := by
              by_cases h1 : pyTruthy g.op_receiving
              · rw [if_pos h1] at hstep
                obtain ⟨ha, hb⟩ := add_receiving_ok (except_map_some_ok.mp hstep)
                exact ⟨"receiving", ha, hb⟩
              · rw [if_neg h1] at hstep
                by_cases h2 : pyTruthy g.op_received
                · rw [if_pos h2] at hstep
                  obtain ⟨ha, hb⟩ := add_received_ok (except_map_some_ok.mp hstep)
                  exact ⟨"received", ha, hb⟩
                · rw [if_neg h2] at hstep
                  by_cases h3 : pyTruthy g.op_served
                  · rw [if_pos h3] at hstep
                    obtain ⟨ha, hb⟩ := add_served_ok (except_map_some_ok.mp hstep)
                    exact ⟨"served", ha, hb⟩
                  · rw [if_neg h3] at hstep
                    cases hstep
            obtain ⟨op, hact, rfl⟩ := hrow
            obtain ⟨hsub, htail⟩ := ih e (k + 1) (pyAdd names op) rs ns' hrec
            refine ⟨fun a ha => hsub a (pyAdd_sub names op a ha), ?_⟩
            intro r hr
            rcases List.mem_cons.mp hr with rfl | hr
            · exact ⟨op, hsub op (mem_pyAdd names op), hact⟩
            · exact htail r hr

/-! ### Lemmas: uuid4 strings and CSV merge -/

theorem flatten_byteHex_length :
    ∀ bs : List Nat, ((bs.map byteHex).flatten).length = 2 * bs.length := by
  intro bs
  induction bs with
  | nil => rfl
  | cons b bs ih =>
    simp only [List.map_cons, List.flatten_cons, List.length_append, ih, byteHex,
      List.length_cons, List.length_nil, List.length_cons]
    omega

theorem uuidStringOfBytes_length {bs : List Nat} (h : bs.length = 16) :
    (uuidStringOfBytes bs).length = 36 := by
  have hl : ((bs.map byteHex).flatten).length = 32 := by
    rw [flatten_byteHex_length, h]
  unfold uuidStringOfBytes
  simp only [String.length, List.length_append, List.length_take, List.length_cons,
    List.length_drop, hl]
  omega

theorem uuid4_str_length (rand : Nat → Nat) : (uuid4_str rand).length = 36 := by
  unfold uuid4_str
  refine uuidStringOfBytes_length ?_
  simp [setVersion, List.enum_length]

theorem uuid4_str_ne_empty (rand : Nat → Nat) : uuid4_str rand ≠ "" := by
  intro h
  have hl := uuid4_str_length rand
  rw [h] at hl
  exact absurd hl (by decide)

theorem merge_csv_files_eq_flatten :
    ∀ frags : List (List EntryRow), merge_csv_files frags = frags.flatten := by
  have gen : ∀ (frags : List (List EntryRow)) (acc : List EntryRow),
      frags.foldl (fun a f => a ++ f) acc = acc ++ frags.flatten := by
    intro frags
    induction frags with
    | nil => intro acc; simp
    | cons f frags ih => intro acc; simp [ih, List.append_assoc]
  intro frags
  simpa using gen frags []

/-! ### The claims -/

/-- C1: `deterministic_action_type_id` is a pure function of the action name:
evaluating it in any two execution contexts (same or different calls,
processes, or runs) yields the identical identifier string, because the
function reads nothing but its argument and the constant namespace. -/
theorem C1_deterministic_id_pure (ctx₁ ctx₂ : ExecContext) (n : String) :
    action_type_id_in ctx₁ n = action_type_id_in ctx₂ n := rfl

/-- C6 counterexample: the staged fact row of the spec's access example
already carries a parser-minted primary key before load time — the `id` cell
that `write_entry` fills with `str(uuid.uuid4())` (here with a zeroed entropy
supply) — and it survives `merge_csv_files` unchanged, so the claim that the
key is absent before the bulk-loading stage is false. -/
theorem C6_counterexample :
    (parse_access_worker (fun _ _ => 0) 0 [] [accessExampleLine]).toOption.map
        (fun t => (merge_csv_files [t.1]).map (·.id)) =
      some ["00000000-0000-4000-8000-000000000000"] ∧
    ("00000000-0000-4000-8000-000000000000" : String) ≠ "" := by
  exact ⟨rfl, by decide⟩

/-- C6 amended: every staged fact row's primary key is minted by the parse
worker itself — `write_entry` assigns `str(uuid.uuid4())`, a 36-character,
never-empty string — and `merge_csv_files` passes rows through verbatim (the
COPY loader in `load.py` then loads the `id` column unchanged); the loader
mints nothing. -/
theorem C6_parser_minted_key :
    (∀ (rand : Nat → Nat) (lt : LogType) (a : String) (ts : PyDateTime)
      (si di : String) (b sz : Option Int) (d : List (String × String))
      (ids : List (LogType × Nat)),
      (write_entry rand lt a ts si di b sz d ids).id = uuid4_str rand) ∧
    (∀ rand : Nat → Nat, (uuid4_str rand).length = 36 ∧ uuid4_str rand ≠ "") ∧
    (∀ frags : List (List EntryRow), merge_csv_files frags = frags.flatten) :=
  ⟨fun _ _ _ _ _ _ _ _ _ _ => rfl,
   fun rand => ⟨uuid4_str_length rand, uuid4_str_ne_empty rand⟩,
   merge_csv_files_eq_flatten⟩

/-- C5: processing the spec's example access line yields exactly one fact row
(log type ACCESS = 1, action `GET`, source 10.0.0.1, 1043 bytes) and one
detail row — but the detail row's `http_method` cell is the empty string, not
`GET`: the worker's `writerow` dict omits the `http_method` key declared in
`ACCESS_DETAIL_FIELDS`, so `csv.DictWriter` silently writes its restval. -/
theorem C5_access_example :
    parse_access_worker (fun _ _ => 0) 0 [] [accessExampleLine] =
      .ok ([{ id := "00000000-0000-4000-8000-000000000000",
              log_type_id := 1,
              action_type_id := deterministic_action_type_id "GET",
              log_timestamp := "2020-10-10T13:55:36+00:00",
              source_ip := "10.0.0.1", dest_ip := "", block_id := none,
              size_bytes := some 1043 }],
           [{ log_entry_id := "00000000-0000-4000-8000-000000000000",
              remote_name := "-", auth_user := "-", http_method := "",
              resource := "/index.html", http_status := 200,
              referrer := none, user_agent := "curl/7.64" }],
           ["GET"]) ∧
    ("" : String) ≠ "GET" := by
  exact ⟨rfl, by decide⟩

theorem pyInt_digits_str (s : String) (hne : s.data ≠ [])
    (h : ∀ c ∈ s.data, pyDigit c = true) :
    pyInt s = some ((digitsVal s.data : Nat) : Int) := by
  obtain ⟨l⟩ := s
  exact pyInt_digits l hne h

theorem mkAccessRow_size (rand : Nat → Nat) (g : AccessGroups) (ts : PyDateTime)
    (size : Option Int) : (mkAccessRow rand g ts size).size_bytes = size := rfl

/-- C7: on a matched access line whose run completes, the size field `-`
yields a fact row with `size_bytes` absent (not zero, and the conversion
raises nothing), while an all-digits size field yields `size_bytes` equal to
that integer. -/
theorem C7_size_absent_or_int :
    ∀ (e : Nat → Nat → Nat) (k : Nat) (names : List String) (raw : String)
      (rest : List String) (g : AccessGroups) (rows : List EntryRow)
      (dets : List DetailRow) (ns : List String),
      accessMatch (rstripNewlines raw) = some g →
      parse_access_worker e k names (raw :: rest) = .ok (rows, dets, ns) →
      (g.size = "-" →
        sizeFieldVal g.size = .ok none ∧
        ∃ r rs, rows = r :: rs ∧ r.size_bytes = none) ∧
      (g.size.data ≠ [] → (∀ c ∈ g.size.data, pyDigit c = true) →
        ∃ r rs, rows = r :: rs ∧
          r.size_bytes = some ((digitsVal g.size.data : Nat) : Int)) := by
  intro e k names raw rest g rows dets ns hm h
  obtain ⟨ts, size, st, rs, ds, -, hsize, -, -, rfl, -⟩ :=
    parse_access_cons_ok e k names raw rest g rows dets ns hm h
  constructor
  · intro hdash
    rw [hdash] at hsize
    have hnone : size = none := by
      have h0 : sizeFieldVal "-" = (.ok none : Except PyErr (Option Int)) := rfl
      rw [h0] at hsize
      injection hsize with h'
      exact h'.symm
    subst hnone
    refine ⟨?_, _, rs, rfl, rfl⟩
    rw [hdash]
    rfl
  · intro hne hdig
    have hs1 : g.size ≠ "" := by
      intro hq
      rw [hq] at hne
      exact hne rfl
    have hs2 : g.size ≠ "-" := by
      intro hq
      have hd := hdig '-' (by rw [hq]; simp)
      cases hd
    have hpy : pyInt g.size = some ((digitsVal g.size.data : Nat) : Int) :=
      pyInt_digits_str g.size hne hdig
    have hv : size = some ((digitsVal g.size.data : Nat) : Int) := by
      rw [sizeFieldVal, if_neg (by simp [hs1, hs2]), intField, hpy] at hsize
      simp only [Except.map] at hsize
      injection hsize with h'
      exact h'.symm
    subst hv
    exact ⟨_, rs, rfl, rfl⟩

/-- C4 counterexample: `accessBadSizeLine` matches `ACCESS_REGEX` but its
size field `abc` fails `int()`; the worker does not drop the line and
continue — the uncaught `ValueError` aborts the run. -/
theorem C4_counterexample :
    (accessMatch accessBadSizeLine).isSome = true ∧
    parse_access_worker (fun _ _ => 0) 0 [] [accessBadSizeLine] =
      .error (.valueError "invalid literal for int() with base 10: abc") := by
  exact ⟨rfl, rfl⟩

/-- C4 amended: a line that fails the pattern is silently skipped and the
loop continues, but on a pattern-matched line a failing timestamp or size
conversion raises an uncaught `ValueError` that kills the worker run
(nothing is counted; there is no counter in the worker). -/
theorem C4_field_failure_crashes :
    (∀ (e : Nat → Nat → Nat) (k : Nat) (names : List String) (raw : String)
      (rest : List String), accessMatch (rstripNewlines raw) = none →
      parse_access_worker e k names (raw :: rest) =
        parse_access_worker e k names rest) ∧
    (∀ (e : Nat → Nat → Nat) (k : Nat) (names : List String) (raw : String)
      (rest : List String) (g : AccessGroups),
      accessMatch (rstripNewlines raw) = some g →
      ts_apache g.timestamp = none →
      parse_access_worker e k names (raw :: rest) =
        .error (.valueError ("time data " ++ g.timestamp ++ " does not match format"))) ∧
    (∀ (e : Nat → Nat → Nat) (k : Nat) (names : List String) (raw : String)
      (rest : List String) (g : AccessGroups) (ts : PyDateTime),
      accessMatch (rstripNewlines raw) = some g →
      ts_apache g.timestamp = some ts →
      g.size ≠ "" → g.size ≠ "-" → pyInt g.size = none →
      parse_access_worker e k names (raw :: rest) =
        .error (.valueError ("invalid literal for int() with base 10: " ++ g.size))) :=
  ⟨parse_access_skip, parse_access_ts_crash, parse_access_size_crash⟩

/-- C2: merging worker action catalogs (fragments whose names are unique
within each fragment, as `write_action_types` produces from a set) raises
the UUID-mismatch error exactly when some name appears in two fragments with
different identifiers; and when every fragment's ids are
`deterministic_action_type_id` of the names, the merge never raises and its
output lists each distinct observed name exactly once. -/
theorem C2_merge_conflict :
    (∀ frags : List (List ActionRow),
      (∀ f ∈ frags, (f.map (·.name)).Nodup) →
      ((∃ msg, merge_action_types frags = .error msg) ↔ CrossConflict frags)) ∧
    (∀ frags : List (List ActionRow),
      (∀ f ∈ frags, ∀ r ∈ f, r.id = deterministic_action_type_id r.name) →
      ∃ out, merge_action_types frags = .ok out ∧
        ∀ n : String, (out.map (·.name)).count n =
          if n ∈ frags.flatten.map (·.name) then 1 else 0) := by
  constructor
  · intro frags hf
    unfold merge_action_types
    cases hp : processRows frags.flatten [] with
    | error msg =>
      simp only
      constructor
      · intro _
        refine (noConflict_flatten_iff frags hf).mp ?_
        intro hnc
        have hok : ∃ d', processRows frags.flatten [] = .ok d' :=
          (processRows_ok_iff frags.flatten [] (by simp)).mpr (by simpa using hnc)
        obtain ⟨d', hd'⟩ := hok
        rw [hp] at hd'
        cases hd'
      · intro _
        exact ⟨msg, rfl⟩
    | ok d =>
      simp only
      constructor
      · intro ⟨msg, hmsg⟩
        cases hmsg
      · intro hcc
        have hnc : NoConflict frags.flatten := by
          have := (processRows_ok_iff frags.flatten [] (by simp)).mp ⟨d, hp⟩
          simpa using this
        exact absurd hnc ((noConflict_flatten_iff frags hf).mpr hcc)
  · intro frags hder
    have hnc : NoConflict frags.flatten := by
      intro r₁ h₁ r₂ h₂ hn
      obtain ⟨f₁, hf₁, hr₁⟩ := List.mem_flatten.mp h₁
      obtain ⟨f₂, hf₂, hr₂⟩ := List.mem_flatten.mp h₂
      rw [hder f₁ hf₁ r₁ hr₁, hder f₂ hf₂ r₂ hr₂, hn]
    obtain ⟨d, hp⟩ := (processRows_ok_iff frags.flatten [] (by simp)).mpr
      (by simpa using hnc)
    obtain ⟨hnodup, hmem⟩ := processRows_names frags.flatten [] d hp (by simp)
    refine ⟨sortBy tupleLtB d, by simp [merge_action_types, hp], ?_⟩
    intro n
    have hperm : ((sortBy tupleLtB d).map (·.name)).Perm (d.map (·.name)) :=
      (sortBy_perm tupleLtB d).map (·.name)
    rw [hperm.count_eq]
    by_cases hn : n ∈ frags.flatten.map (·.name)
    · rw [if_pos hn]
      exact List.count_eq_one_of_mem hnodup ((hmem n).mpr (by simpa using hn))
    · rw [if_neg hn]
      refine List.count_eq_zero.mpr ?_
      intro hmem'
      have := (hmem n).mp hmem'
      simp only [List.map_nil, List.not_mem_nil, false_or] at this
      exact hn this

/-- C3 counterexample: `replBadTsLine` matches the replicate pattern with two
destination tokens, yet the worker emits no rows for it — `ts_hdfs_compact`
raises on the six-nines date and the uncaught `ValueError` kills the run, so
"exactly K fact rows" fails as stated. -/
theorem C3_counterexample :
    replicateMatch replBadTsLine = some replBadTsGroups ∧
    (pySplit replBadTsGroups.dest_list).length = 2 ∧
    parse_namesystem_worker (fun _ _ => 0) 0 [] [replBadTsLine] =
      .error (.valueError "time data 999999999999 does not match format") := by
  exact ⟨rfl, rfl, rfl⟩

/-- C3 amended: for every line matching the replicate pattern whose compact
timestamp converts, `add_replicate` emits exactly one row per
whitespace-separated destination token, in list order; apart from each row's
freshly minted uuid4 id, the rows share the block id, source ip, timestamp
and the `replicate` action, differing only in the destination ip (the part
of the k-th token before its first colon). -/
theorem C3_replicate_fanout :
    ∀ (e : Nat → Nat → Nat) (k : Nat) (names : List String) (line : String)
      (g : ReplGroups) (ts : PyDateTime),
      replicateMatch line = some g →
      ts_hdfs_compact g.date g.time = some ts →
      ∃ b : Int, pyInt g.block = some b ∧
        add_replicate e k names g = .ok
          ((pySplit g.dest_list).enum.map (fun p =>
            write_entry (e (k + p.1)) .HDFS_NAMESYSTEM
              (deterministic_action_type_id "replicate") ts g.src_ip
              (beforeColon p.2) (some b) none [] load_log_type_ids),
           pyAdd names "replicate") := by
  intro e k names line g ts hm hts
  obtain ⟨hwords, b, hb⟩ := replicateMatch_inv hm
  refine ⟨b, hb, ?_⟩
  unfold add_replicate
  rw [show tsHdfsField g.date g.time = .ok ts from tsHdfsField_ok.mpr hts]
  rw [show intField g.block = .ok b from by simp [intField, hb]]
  dsimp only
  rw [add_replicate_rows_eq e k ts g.src_ip b (pySplit g.dest_list)
    (pySplit_colon hwords) 0]
  rfl

/-- C9 counterexample: a replicate line with the malformed destination token
`foo` between two well-formed tokens does not match the pattern at all and
the worker emits nothing for it — the well-formed sibling tokens do not
emit, contradicting "only that token is skipped". -/
theorem C9_counterexample :
    replicateMatch replBadTokenLine = none ∧
    updateMatch replBadTokenLine = none ∧
    parse_namesystem_worker (fun _ _ => 0) 0 [] [replBadTokenLine] =
      .ok ([], []) := by
  exact ⟨rfl, rfl, rfl⟩

/-- C9 amended: the replicate pattern only matches lines whose destination
list is entirely well-formed — every whitespace token of a matched
`dest_list` contains a colon — and on such tokens the extractor's skip guard
never fires: one row per token, none skipped.  (A line containing a
malformed or empty token simply fails the pattern and emits nothing, as the
counterexample shows.) -/
theorem C9_malformed_token_kills_line :
    (∀ (line : String) (g : ReplGroups), replicateMatch line = some g →
      ∀ t ∈ pySplit g.dest_list, containsColon t = true) ∧
    (∀ (e : Nat → Nat → Nat) (k : Nat) (ts : PyDateTime) (src : String)
      (b : Int) (toks : List String), (∀ t ∈ toks, containsColon t = true) →
      ∀ i, (add_replicate_rows e k ts src b toks i).length = toks.length) := by
  constructor
  · intro line g hm
    exact pySplit_colon (replicateMatch_inv hm).1
  · intro e k ts src b toks h i
    rw [add_replicate_rows_eq e k ts src b toks h i]
    simp

/-- C8: whenever the conversions succeed, `add_update` stages exactly one
record, but it writes the matched IP into `source_ip` and leaves `dest_ip`
empty, while the sibling revision `build_namesystem_update` (parser.py)
builds the one record with the IP in `dest_ip` as the spec states. -/
theorem C8_update_one_record :
    ∀ (e : Nat → Nat → Nat) (k : Nat) (names : List String) (g : UpdGroups)
      (ts : PyDateTime) (b : Int) (sz : Option Int),
      ts_hdfs_compact g.date g.time = some ts →
      pyInt g.block = some b →
      updSizeVal g = .ok sz →
      add_update e k names g = .ok
        (write_entry (e k) .HDFS_NAMESYSTEM (deterministic_action_type_id "update")
          ts g.ip "" (some b) sz [] load_log_type_ids, pyAdd names "update") ∧
      (write_entry (e k) .HDFS_NAMESYSTEM (deterministic_action_type_id "update")
          ts g.ip "" (some b) sz [] load_log_type_ids).source_ip = g.ip ∧
      (write_entry (e k) .HDFS_NAMESYSTEM (deterministic_action_type_id "update")
          ts g.ip "" (some b) sz [] load_log_type_ids).dest_ip = "" ∧
      build_namesystem_update g = .ok
        [{ log_type_name := "HDFS_NAMESYSTEM", action_type_name := "update",
           timestamp := ts, source_ip := none, dest_ip := some g.ip,
           block_id := some b, size_bytes := sz }] := by
  intro e k names g ts b sz hts hb hsz
  have h1 : tsHdfsField g.date g.time = .ok ts := tsHdfsField_ok.mpr hts
  have h2 : intField g.block = .ok b := by simp [intField, hb]
  refine ⟨?_, rfl, rfl, ?_⟩
  · unfold add_update
    rw [h1, hsz, h2]
  · unfold build_namesystem_update
    rw [h1, hsz, h2]

/-- C10: in every completed worker run (access, DataXceiver, namesystem),
each staged fact row's `action_type_id` is `deterministic_action_type_id` of
an action name that the worker's observed-name set — written to its
`action_types` staging file at end of run — contains, so every fact row's
action foreign key resolves against the merged catalog. -/
theorem C10_actions_resolve :
    (∀ (lines : List String) (e : Nat → Nat → Nat) (k : Nat)
      (names : List String) (rows : List EntryRow) (dets : List DetailRow)
      (ns : List String),
      parse_access_worker e k names lines = .ok (rows, dets, ns) →
      ∀ r ∈ rows, ∃ a ∈ ns, r.action_type_id = deterministic_action_type_id a) ∧
    (∀ (lines : List String) (e : Nat → Nat → Nat) (k : Nat)
      (names : List String) (rows : List EntryRow) (ns : List String),
      parse_dataxceiver_worker e k names lines = .ok (rows, ns) →
      ∀ r ∈ rows, ∃ a ∈ ns, r.action_type_id = deterministic_action_type_id a) ∧
    (∀ (lines : List String) (e : Nat → Nat → Nat) (k : Nat)
      (names : List String) (rows : List EntryRow) (ns : List String),
      parse_namesystem_worker e k names lines = .ok (rows, ns) →
      ∀ r ∈ rows, ∃ a ∈ ns, r.action_type_id = deterministic_action_type_id a) :=
  ⟨fun lines e k names rows dets ns h =>
    (parse_access_actions lines e k names rows dets ns h).2,
   fun lines e k names rows ns h =>
    (parse_dataxceiver_actions lines e k names rows ns h).2,
   fun lines e k names rows ns h =>
    (parse_namesystem_actions lines e k names rows ns h).2⟩

/-- Witness for C2: for two duplicate-free catalogs the raise-iff-conflict
equivalence holds at a concrete input, and a singleton catalog whose id is
derived by the identifier service merges successfully, listing `GET` once. -/
theorem C2_merge_conflict_witness :
    ((∃ msg, merge_action_types [[ActionRow.mk "u1" "GET"],
        [ActionRow.mk "u1" "GET"]] = .error msg) ↔
      CrossConflict [[ActionRow.mk "u1" "GET"], [ActionRow.mk "u1" "GET"]]) ∧
    (∃ out, merge_action_types
        [[ActionRow.mk (deterministic_action_type_id "GET") "GET"]] = .ok out ∧
      ∀ n : String, (out.map (·.name)).count n =
        if n ∈ ([[ActionRow.mk (deterministic_action_type_id "GET") "GET"]] :
            List (List ActionRow)).flatten.map (·.name) then 1 else 0) :=
  ⟨C2_merge_conflict.1 [[ActionRow.mk "u1" "GET"], [ActionRow.mk "u1" "GET"]]
    (by decide),
   C2_merge_conflict.2 [[ActionRow.mk (deterministic_action_type_id "GET")
      "GET"]] (by
    intro f hf r hr
    simp only [List.mem_singleton] at hf
    subst hf
    simp only [List.mem_singleton] at hr
    subst hr
    rfl)⟩

/-- Witness for C3: the spec's replicate example line, two destinations, two
rows. -/
theorem C3_replicate_fanout_witness :
    ∃ b : Int,
      pyInt (ReplGroups.mk "081109" "203615" "148" "10.0.0.5" "100"
        "10.0.0.6:50010 10.0.0.7:50010").block = some b ∧
      add_replicate (fun _ _ => 0) 0 []
          (ReplGroups.mk "081109" "203615" "148" "10.0.0.5" "100"
            "10.0.0.6:50010 10.0.0.7:50010") = .ok
        ((pySplit (ReplGroups.mk "081109" "203615" "148" "10.0.0.5" "100"
            "10.0.0.6:50010 10.0.0.7:50010").dest_list).enum.map (fun p =>
          write_entry ((fun _ _ => 0) (0 + p.1)) .HDFS_NAMESYSTEM
            (deterministic_action_type_id "replicate")
            ⟨2008, 11, 9, 20, 36, 15, none⟩
            (ReplGroups.mk "081109" "203615" "148" "10.0.0.5" "100"
              "10.0.0.6:50010 10.0.0.7:50010").src_ip
            (beforeColon p.2) (some b) none [] load_log_type_ids),
         pyAdd [] "replicate") :=
  C3_replicate_fanout (fun _ _ => 0) 0 [] replExampleLine
    ⟨"081109", "203615", "148", "10.0.0.5", "100",
     "10.0.0.6:50010 10.0.0.7:50010"⟩
    ⟨2008, 11, 9, 20, 36, 15, none⟩ rfl rfl

/-- Witness for C4: a non-matching line is skipped; a matched line with an
unparseable timestamp and a matched line with a non-numeric size both abort
the run. -/
theorem C4_field_failure_crashes_witness :
    parse_access_worker (fun _ _ => 0) 0 [] [accessNoMatchLine] =
      parse_access_worker (fun _ _ => 0) 0 [] [] ∧
    parse_access_worker (fun _ _ => 0) 0 [] [accessBadTsLine] =
      .error (.valueError ("time data " ++
        (AccessGroups.mk "10.0.0.1" "-" "-" "notadate" "GET" "/index.html"
          "200" "1043" "-" "curl/7.64").timestamp ++
        " does not match format")) ∧
    parse_access_worker (fun _ _ => 0) 0 [] [accessBadSizeLine] =
      .error (.valueError ("invalid literal for int() with base 10: " ++
        (AccessGroups.mk "10.0.0.1" "-" "-" "10/Oct/2020:13:55:36 +0000" "GET"
          "/index.html" "200" "abc" "-" "curl/7.64").size)) :=
  ⟨C4_field_failure_crashes.1 (fun _ _ => 0) 0 [] accessNoMatchLine [] rfl,
   C4_field_failure_crashes.2.1 (fun _ _ => 0) 0 [] accessBadTsLine []
     ⟨"10.0.0.1", "-", "-", "notadate", "GET", "/index.html", "200", "1043",
      "-", "curl/7.64"⟩ rfl rfl,
   C4_field_failure_crashes.2.2 (fun _ _ => 0) 0 [] accessBadSizeLine []
     ⟨"10.0.0.1", "-", "-", "10/Oct/2020:13:55:36 +0000", "GET", "/index.html",
      "200", "abc", "-", "curl/7.64"⟩ ⟨2020, 10, 10, 13, 55, 36, some 0⟩
     rfl rfl (by decide) (by decide) rfl⟩

/-- Witness for C7: the dash-size example line yields a row with size
absent; the 1043-byte example line yields a row with size 1043. -/
theorem C7_size_absent_or_int_witness :
    (sizeFieldVal (AccessGroups.mk "10.0.0.1" "-" "-"
        "10/Oct/2020:13:55:36 +0000" "GET" "/index.html" "200" "-" "-"
        "curl/7.64").size = .ok none ∧
      ∃ r rs, [EntryRow.mk "00000000-0000-4000-8000-000000000000" 1
          (deterministic_action_type_id "GET") "2020-10-10T13:55:36+00:00"
          "10.0.0.1" "" none none] = r :: rs ∧
        r.size_bytes = none) ∧
    ∃ r rs, [EntryRow.mk "00000000-0000-4000-8000-000000000000" 1
        (deterministic_action_type_id "GET") "2020-10-10T13:55:36+00:00"
        "10.0.0.1" "" none (some 1043)] = r :: rs ∧
      r.size_bytes = some ((digitsVal (AccessGroups.mk "10.0.0.1" "-" "-"
        "10/Oct/2020:13:55:36 +0000" "GET" "/index.html" "200" "1043" "-"
        "curl/7.64").size.data : Nat) : Int) :=
  ⟨(C7_size_absent_or_int (fun _ _ => 0) 0 [] accessDashSizeLine []
      ⟨"10.0.0.1", "-", "-", "10/Oct/2020:13:55:36 +0000", "GET",
       "/index.html", "200", "-", "-", "curl/7.64"⟩
      [EntryRow.mk "00000000-0000-4000-8000-000000000000" 1
        (deterministic_action_type_id "GET") "2020-10-10T13:55:36+00:00"
        "10.0.0.1" "" none none]
      [DetailRow.mk "00000000-0000-4000-8000-000000000000" "-" "-" ""
        "/index.html" 200 none "curl/7.64"] ["GET"] rfl rfl).1 rfl,
   (C7_size_absent_or_int (fun _ _ => 0) 0 [] accessExampleLine []
      ⟨"10.0.0.1", "-", "-", "10/Oct/2020:13:55:36 +0000", "GET",
       "/index.html", "200", "1043", "-", "curl/7.64"⟩
      [EntryRow.mk "00000000-0000-4000-8000-000000000000" 1
        (deterministic_action_type_id "GET") "2020-10-10T13:55:36+00:00"
        "10.0.0.1" "" none (some 1043)]
      [DetailRow.mk "00000000-0000-4000-8000-000000000000" "-" "-" ""
        "/index.html" 200 none "curl/7.64"] ["GET"] rfl rfl).2
     (by decide) (by decide)⟩

/-- Witness for C8: the `blockMapupdated` example groupdict, block -243,
size 67108864. -/
theorem C8_update_one_record_witness :
    add_update (fun _ _ => 0) 0 [] updExampleGroups = .ok
      (write_entry ((fun _ _ => 0) 0) .HDFS_NAMESYSTEM
        (deterministic_action_type_id "update") ⟨2008, 11, 9, 20, 35, 18, none⟩
        updExampleGroups.ip "" (some (-243)) (some 67108864) []
        load_log_type_ids, pyAdd [] "update") ∧
    (write_entry ((fun _ _ => 0) 0) .HDFS_NAMESYSTEM
        (deterministic_action_type_id "update") ⟨2008, 11, 9, 20, 35, 18, none⟩
        updExampleGroups.ip "" (some (-243)) (some 67108864) []
        load_log_type_ids).source_ip = updExampleGroups.ip ∧
    (write_entry ((fun _ _ => 0) 0) .HDFS_NAMESYSTEM
        (deterministic_action_type_id "update") ⟨2008, 11, 9, 20, 35, 18, none⟩
        updExampleGroups.ip "" (some (-243)) (some 67108864) []
        load_log_type_ids).dest_ip = "" ∧
    build_namesystem_update updExampleGroups = .ok
      [NsRow.mk "HDFS_NAMESYSTEM" "update" ⟨2008, 11, 9, 20, 35, 18, none⟩
        none (some updExampleGroups.ip) (some (-243)) (some 67108864)] :=
  C8_update_one_record (fun _ _ => 0) 0 [] updExampleGroups
    ⟨2008, 11, 9, 20, 35, 18, none⟩ (-243) (some 67108864) rfl rfl rfl

/-- Witness for C9: the single-destination replicate line's token carries a
colon, and a one-token list yields exactly one row. -/
theorem C9_malformed_token_kills_line_witness :
    containsColon "10.0.0.6:50010" = true ∧
    (add_replicate_rows (fun _ _ => 0) 0 ⟨2008, 11, 9, 20, 36, 15, none⟩
      "10.0.0.5" 100 ["10.0.0.6:50010"] 0).length =
      (["10.0.0.6:50010"] : List String).length :=
  ⟨C9_malformed_token_kills_line.1 replOneDestLine
    ⟨"081109", "203615", "148", "10.0.0.5", "100", "10.0.0.6:50010"⟩ rfl
    "10.0.0.6:50010" (by decide),
   C9_malformed_token_kills_line.2 (fun _ _ => 0) 0
    ⟨2008, 11, 9, 20, 36, 15, none⟩ "10.0.0.5" 100 ["10.0.0.6:50010"]
    (by decide) 0⟩

/-- Witness for C10: one concrete completed run of each worker; the single
staged row's action id is the deterministic id of a recorded name. -/
theorem C10_actions_resolve_witness :
    (∃ a ∈ ["GET"],
      EntryRow.action_type_id
        (EntryRow.mk "00000000-0000-4000-8000-000000000000" 1
          (deterministic_action_type_id "GET") "2020-10-10T13:55:36+00:00"
          "10.0.0.1" "" none (some 1043)) =
        deterministic_action_type_id a) ∧
    (∃ a ∈ ["receiving"],
      EntryRow.action_type_id
        (EntryRow.mk "00000000-0000-4000-8000-000000000000" 2
          (deterministic_action_type_id "receiving") "2008-11-09T20:35:18"
          "10.250.19.102" "10.250.19.102" (some (-16)) none) =
        deterministic_action_type_id a) ∧
    (∃ a ∈ ["replicate"],
      EntryRow.action_type_id
        (EntryRow.mk "00000000-0000-4000-8000-000000000000" 3
          (deterministic_action_type_id "replicate") "2008-11-09T20:36:15"
          "10.0.0.5" "10.0.0.6" (some 100) none) =
        deterministic_action_type_id a) :=
  ⟨C10_actions_resolve.1 [accessExampleLine] (fun _ _ => 0) 0 []
      [EntryRow.mk "00000000-0000-4000-8000-000000000000" 1
        (deterministic_action_type_id "GET") "2020-10-10T13:55:36+00:00"
        "10.0.0.1" "" none (some 1043)]
      [DetailRow.mk "00000000-0000-4000-8000-000000000000" "-" "-" ""
        "/index.html" 200 none "curl/7.64"] ["GET"] rfl _
      (List.mem_cons_self _ _),
   C10_actions_resolve.2.1 [dataxReceivingLine] (fun _ _ => 0) 0 []
      [EntryRow.mk "00000000-0000-4000-8000-000000000000" 2
        (deterministic_action_type_id "receiving") "2008-11-09T20:35:18"
        "10.250.19.102" "10.250.19.102" (some (-16)) none]
      ["receiving"] rfl _ (List.mem_cons_self _ _),
   C10_actions_resolve.2.2 [replOneDestLine] (fun _ _ => 0) 0 []
      [EntryRow.mk "00000000-0000-4000-8000-000000000000" 3
        (deterministic_action_type_id "replicate") "2008-11-09T20:36:15"
        "10.0.0.5" "10.0.0.6" (some 100) none]
      ["replicate"] rfl _ (List.mem_cons_self _ _)⟩
